import Mathlib

/-!
# Ticket office registry (`src/main.c`)

A shallow embedding of the reservation registry of `src/main.c`: the passenger
list, the two seat tables, seat allocation and release, the registry
operations and the arrival computation, followed by the properties proved
about them.

Conventions of the embedding.

* C `int` values are `Int`.  The narrowing conversion `(int)seatValue` in
  `change_seat` is written out (`long_to_int`), and so is the `int`
  arithmetic on the fields of a date in `datetime_to_time_t` and
  `time_t_to_datetime` (`wrap_int32`), where the year after 2147483647 does
  not fit.  The other `int` computations stay far inside the 32-bit range
  (seat numbers are at most 250, minute deltas at most 1080), so they are
  exact.
* C strings are lists of characters (the bytes before the terminating NUL).
  `strcmp(a, b) == 0` is list equality, and `strncpy(dst, src, n)` followed by
  `dst[n - 1] = 0` stores the first `n - 1` characters of `src`.
* The linked list hanging from `head` is a `List Passenger` in list order.
* `seatMap[2][251]` is a function from the flight type and the index to the
  stored flag.  Every access in the source is range checked to `1..250`
  before it indexes the table.
* `rand()` is a sequence `rnd : Nat → Nat`; `rnd k` is the value returned by
  the `k`-th call made during the operation (a non-negative `int`).
* The prompt loops of the console layer (`read_line`, `read_flight_type`, ...)
  are not part of the registry: an operation of the model receives the values
  those loops would deliver and reports the branch it takes as its result.
-/

namespace TicketOffice

/-! ## Data model -/

/-- The enum `FlightType` (lines 27-30). -/
inductive FlightType where
  | FLIGHT_NATIONAL
  | FLIGHT_INTERNATIONAL
  deriving DecidableEq, Repr

/-- The enum `TicketClass` (lines 32-35). -/
inductive TicketClass where
  | CLASS_FIRST
  | CLASS_ECONOMY
  deriving DecidableEq, Repr

/-- The struct `Date` (lines 37-41). -/
structure Date where
  day : Int
  month : Int
  year : Int
  deriving DecidableEq, Repr

/-- The struct `TimeOfDay` (lines 43-46). -/
structure TimeOfDay where
  hour : Int
  minute : Int
  deriving DecidableEq, Repr

/-- A NUL-terminated C string, as the characters before the NUL. -/
abbrev CStr := List Char

/-- The struct `Passenger` (lines 48-64) without its `next` pointer, which is
the position of the record in the list. -/
structure Passenger where
  flightType : FlightType
  flightCode : CStr
  document : CStr
  firstName : CStr
  lastName : CStr
  phone : CStr
  birthDate : Date
  gender : Char
  ticketClass : TicketClass
  flightDate : Date
  departureTime : TimeOfDay
  arrivalDate : Date
  arrivalTime : TimeOfDay
  seatNumber : Int
  deriving DecidableEq, Repr

def MAX_NAME_LENGTH : Nat := 64
def MAX_PHONE_LENGTH : Nat := 32
def MAX_DOCUMENT_LENGTH : Nat := 32
def MAX_FLIGHT_CODE_LENGTH : Nat := 8
def MAX_LINE_LENGTH : Nat := 128

def FIRST_CLASS_START : Int := 1
def FIRST_CLASS_END : Int := 20
def ECONOMY_CLASS_START : Int := 21
def ECONOMY_CLASS_END : Int := 250

def NATIONAL_DURATION_MINUTES : Int := 50
def INTERNATIONAL_DURATION_MINUTES : Int := 11 * 60
def INTERNATIONAL_TIME_DIFF_MINUTES : Int := 7 * 60

/-- The table `FLIGHT_CODES` (line 66). -/
def FLIGHT_CODES : FlightType → CStr
  | .FLIGHT_NATIONAL => ['G', 'O', 'P', 'L', 'A', '0', '1']
  | .FLIGHT_INTERNATIONAL => ['G', 'O', 'P', 'L', 'A', '0', '2']

/-- The effect of `strncpy(dst, src, size); dst[size - 1] = 0;` on a zeroed or
reused field: the field then reads as the first `size - 1` characters of
`src`. -/
def strncpy_field (src : CStr) (size : Nat) : CStr :=
  src.take (size - 1)

/-- The global `seatMap` (line 70): `sm type i` is `seatMap[type][i]`. -/
abbrev SeatMap := FlightType → Int → Bool

/-- The assignment `seatMap[type][seat] = value`. -/
def SeatMap.write (sm : SeatMap) (type : FlightType) (seat : Int) (value : Bool) : SeatMap :=
  fun t i => if t = type ∧ i = seat then value else sm t i

/-- The registry: the list reached from `head` and the global seat table. -/
structure Registry where
  passengers : List Passenger
  seatMap : SeatMap

/-- The state at program start: `head = NULL` and a zero-initialised table. -/
def Registry.initial : Registry :=
  { passengers := [], seatMap := fun _ _ => false }

/-! ## Seat inventory -/

/-- The function `seat_range_start` (lines 192-194). -/
def seat_range_start (ticketClass : TicketClass) : Int :=
  if ticketClass = .CLASS_FIRST then FIRST_CLASS_START else ECONOMY_CLASS_START

/-- The function `seat_range_end` (lines 196-198). -/
def seat_range_end (ticketClass : TicketClass) : Int :=
  if ticketClass = .CLASS_FIRST then FIRST_CLASS_END else ECONOMY_CLASS_END

/-- The counting loop of `assign_random_seat` (lines 204-208), started at
index `i` with `n` iterations left (`n = end - i + 1`). -/
def count_available (sm : SeatMap) (type : FlightType) (i : Int) : Nat → Int
  | 0 => 0
  | n + 1 => (if !sm type i then 1 else 0) + count_available sm type (i + 1) n

/-- The random phase of `assign_random_seat` (lines 212-220): `attempts` draws
have been made and `n = 1000 - attempts` iterations are left.  Returns the seat
of the first draw that hits a free seat. -/
def random_phase (sm : SeatMap) (type : FlightType) (start end_ : Int) (rnd : Nat → Nat)
    (attempts : Nat) : Nat → Option Int
  | 0 => none
  | n + 1 =>
    let seat := start + (rnd attempts : Int) % (end_ - start + 1)
    if !sm type seat then some seat
    else random_phase sm type start end_ rnd (attempts + 1) n

/-- The sequential fallback of `assign_random_seat` (lines 222-227), at index
`seat` with `n` iterations left. -/
def sequential_phase (sm : SeatMap) (type : FlightType) (seat : Int) : Nat → Option Int
  | 0 => none
  | n + 1 =>
    if !sm type seat then some seat
    else sequential_phase sm type (seat + 1) n

/-- The function `assign_random_seat` (lines 200-229): the returned `int`
(`-1` when no seat is given) and the seat table after the call. -/
def assign_random_seat (sm : SeatMap) (rnd : Nat → Nat) (type : FlightType)
    (ticketClass : TicketClass) : Int × SeatMap :=
  let start := seat_range_start ticketClass
  let end_ := seat_range_end ticketClass
  let available := count_available sm type start (end_ - start + 1).toNat
  if available = 0 then (-1, sm)
  else
    match random_phase sm type start end_ rnd 0 1000 with
    | some seat => (seat, sm.write type seat true)
    | none =>
      match sequential_phase sm type start (end_ - start + 1).toNat with
      | some seat => (seat, sm.write type seat true)
      | none => (-1, sm)

/-- The function `release_seat` (lines 231-236). -/
def release_seat (sm : SeatMap) (type : FlightType) (seatNumber : Int) : SeatMap :=
  if seatNumber < FIRST_CLASS_START ∨ seatNumber > ECONOMY_CLASS_END then sm
  else sm.write type seatNumber false

/-! ## Temporal utilities -/

/-- The function `days_in_month` (lines 96-104).  The remainders are only
compared with zero, where the truncating `%` of C and the `%` of `Int` agree. -/
def days_in_month (month year : Int) : Int :=
  if month = 2 then
    let leap := decide (year % 4 = 0) && (decide (year % 100 ≠ 0) || decide (year % 400 = 0))
    if leap then 29 else 28
  else if month < 1 ∨ month > 12 then 0
  else [31, 28, 31, 30, 31, 30, 31, 31, 30, 31, 30, 31].getD (month - 1).toNat 0

/-- The checks `parse_date` (lines 106-119) applies to the three integers that
`sscanf` read; when they pass, the integers are stored as the `Date`. -/
def parse_date_check (day month year : Int) : Bool :=
  if year < 1900 ∨ month < 1 ∨ month > 12 then false
  else
    let dim := days_in_month month year
    if day < 1 ∨ day > dim then false
    else true

/-- The checks `parse_time` (lines 121-133) applies to the two integers that
`sscanf` read. -/
def parse_time_check (hour minute : Int) : Bool :=
  if hour < 0 ∨ hour > 23 ∨ minute < 0 ∨ minute > 59 then false
  else true

/-- The fields of the C library `struct tm` that the program uses. -/
structure Tm where
  tm_year : Int
  tm_mon : Int
  tm_mday : Int
  tm_hour : Int
  tm_min : Int
  tm_sec : Int
  deriving DecidableEq, Repr

/-- Calendar part of the C library `mktime`: the number of days from
1970-01-01 to the given day of the proleptic Gregorian calendar.  A month
outside `1..12` carries into the year and a day outside the month carries
linearly, as `mktime` normalises its argument. -/
def days_from_civil (year month day : Int) : Int :=
  let mon := month - 1
  let y0 := year + mon / 12
  let m0 := mon % 12
  let y1 := if m0 < 2 then y0 - 1 else y0
  let mp := if m0 < 2 then m0 + 10 else m0 - 2
  365 * y1 + y1 / 4 - y1 / 100 + y1 / 400 + (153 * mp + 2) / 5 + day - 1 - 719468

/-- Calendar part of the C library `localtime`: the (year, month, day) of the
day that lies `z` days after 1970-01-01. -/
def civil_from_days (z : Int) : Int × Int × Int :=
  let n := z + 719468
  let era := n / 146097
  let doe := n % 146097
  let cent := min (doe / 36524) 3
  let doc := doe - cent * 36524
  let quad := doc / 1461
  let doq := doc % 1461
  let yr := min (doq / 365) 3
  let doy := doq - yr * 365
  let y1 := 400 * era + 100 * cent + 4 * quad + yr
  let mp := (5 * doy + 2) / 153
  let d := doy - (153 * mp + 2) / 5 + 1
  let m := if mp < 10 then mp + 3 else mp - 9
  (if m ≤ 2 then y1 + 1 else y1, m, d)

/-- The C library `mktime` for a local time zone that stays `tz` seconds east
of UTC all year (no daylight-saving changes), with a `time_t` wide enough for
the result. -/
def mktime (tz : Int) (tm : Tm) : Int :=
  days_from_civil (tm.tm_year + 1900) (tm.tm_mon + 1) tm.tm_mday * 86400
    + tm.tm_hour * 3600 + tm.tm_min * 60 + tm.tm_sec - tz

/-- The C library `localtime` for the same fixed-offset zone. -/
def localtime (tz : Int) (value : Int) : Tm :=
  let loc := value + tz
  let c := civil_from_days (loc / 86400)
  let s := loc % 86400
  { tm_year := c.1 - 1900, tm_mon := c.2.1 - 1, tm_mday := c.2.2,
    tm_hour := s / 3600, tm_min := s % 3600 / 60, tm_sec := s % 60 }

/-- The value a 32-bit `int` holds after an addition or subtraction whose
exact result is `value`: the result itself when it fits, and the result
reduced modulo 2^32 into the `int` range when it does not (the overflowing
addition of line 155 is seen to wrap this way). -/
def wrap_int32 (value : Int) : Int :=
  (value + 2147483648) % 4294967296 - 2147483648

/-- The function `datetime_to_time_t` (lines 135-145); the two subtractions
are `int` arithmetic. -/
def datetime_to_time_t (tz : Int) (date : Date) (timeOfDay : TimeOfDay) : Int :=
  mktime tz { tm_year := wrap_int32 (date.year - 1900), tm_mon := wrap_int32 (date.month - 1),
              tm_mday := date.day,
              tm_hour := timeOfDay.hour, tm_min := timeOfDay.minute, tm_sec := 0 }

/-- The function `time_t_to_datetime` (lines 147-161), with both output
pointers given; the two additions are `int` arithmetic.  For a departure
whose fields are C `int`s the year of the arrival minus 1900 fits `tm_year`,
so `localtime` does not return NULL. -/
def time_t_to_datetime (tz : Int) (value : Int) : Date × TimeOfDay :=
  let tmValue := localtime tz value
  ({ day := tmValue.tm_mday, month := wrap_int32 (tmValue.tm_mon + 1),
     year := wrap_int32 (tmValue.tm_year + 1900) },
   { hour := tmValue.tm_hour, minute := tmValue.tm_min })

/-- The function `compute_arrival` (lines 238-249). -/
def compute_arrival (tz : Int) (type : FlightType) (departureDate : Date)
    (departureTime : TimeOfDay) : Date × TimeOfDay :=
  let minutesToAdd : Int :=
    if type = .FLIGHT_NATIONAL then NATIONAL_DURATION_MINUTES
    else INTERNATIONAL_DURATION_MINUTES + INTERNATIONAL_TIME_DIFF_MINUTES
  let departure := datetime_to_time_t tz departureDate departureTime
  let arrival := departure + minutesToAdd * 60
  time_t_to_datetime tz arrival

/-- A departure date that `parse_date` accepts. -/
def valid_date (d : Date) : Prop := parse_date_check d.day d.month d.year = true

/-- A departure time that `parse_time` accepts. -/
def valid_time (t : TimeOfDay) : Prop := parse_time_check t.hour t.minute = true

instance (d : Date) : Decidable (valid_date d) := by
  unfold valid_date; infer_instance

instance (t : TimeOfDay) : Decidable (valid_time t) := by
  unfold valid_time; infer_instance

/-- The calendar day after `d`, written out from the calendar rules: the next
day of the month, else the first of the next month, else the first of January
of the next year. -/
def next_day (d : Date) : Date :=
  if d.day < days_in_month d.month d.year then { d with day := d.day + 1 }
  else if d.month < 12 then { day := 1, month := d.month + 1, year := d.year }
  else { day := 1, month := 1, year := d.year + 1 }

/-- The minute delta the specification gives each flight type: 50 minutes, or
an 11 hour flight plus a 7 hour offset. -/
def minutes_added : FlightType → Int
  | .FLIGHT_NATIONAL => 50
  | .FLIGHT_INTERNATIONAL => 1080

/-- The arrival as the specification words it: the departure moved forward by
the minute delta, the date rolling over to the next calendar day when the
clock passes midnight. -/
def arrival_by_rollover (type : FlightType) (d : Date) (t : TimeOfDay) : Date × TimeOfDay :=
  let total := t.hour * 60 + t.minute + minutes_added type
  if total < 1440 then (d, { hour := total / 60, minute := total % 60 })
  else (next_day d, { hour := (total - 1440) / 60, minute := (total - 1440) % 60 })

/-! ## Passenger registry -/

/-- The function `find_passenger` (lines 183-190): the first record whose
document equals the searched string. -/
def find_passenger : List Passenger → CStr → Option Passenger
  | [], _ => none
  | current :: rest, document =>
    if current.document = document then some current
    else find_passenger rest document

/-- The list after an assignment through the pointer that `find_passenger`
returned: the first record whose document equals the searched string is
replaced by `f` of it, every other node is left alone. -/
def write_found (f : Passenger → Passenger) : List Passenger → CStr → List Passenger
  | [], _ => []
  | current :: rest, document =>
    if current.document = document then f current :: rest
    else current :: write_found f rest document

/-- The function `add_passenger` (lines 371-381): walk to the last node and
link the new record behind it. -/
def add_passenger : List Passenger → Passenger → List Passenger
  | [], newPassenger => [newPassenger]
  | current :: rest, newPassenger => current :: add_passenger rest newPassenger

/-- The values the prompts of `buy_ticket` deliver: the enumerated choices,
the line buffers (up to 127 characters each) and the parsed dates. -/
structure BookingInput where
  flightType : FlightType
  document : CStr
  firstName : CStr
  lastName : CStr
  phone : CStr
  birthDate : Date
  gender : Char
  ticketClass : TicketClass
  flightDate : Date
  departureTime : TimeOfDay
  deriving DecidableEq, Repr

/-- How one pass of `buy_ticket` ends: the record is linked with the given
seat; the document prompt answers "Ya existe un pasajero con ese documento."
(line 399); or the function gives up with "No hay sillas disponibles ..."
(line 430). -/
inductive BookResult where
  | Booked (seat : Int)
  | DuplicateDocument
  | NoSeatAvailable
  deriving DecidableEq, Repr

/-- The record `buy_ticket` fills in before it asks for a seat (lines
390-426); `calloc` leaves `seatNumber` zero. -/
def new_passenger (tz : Int) (inp : BookingInput) : Passenger :=
  let arrival := compute_arrival tz inp.flightType inp.flightDate inp.departureTime
  { flightType := inp.flightType
    flightCode := strncpy_field (FLIGHT_CODES inp.flightType) MAX_FLIGHT_CODE_LENGTH
    document := strncpy_field inp.document MAX_DOCUMENT_LENGTH
    firstName := strncpy_field inp.firstName MAX_NAME_LENGTH
    lastName := strncpy_field inp.lastName MAX_NAME_LENGTH
    phone := strncpy_field inp.phone MAX_PHONE_LENGTH
    birthDate := inp.birthDate
    gender := inp.gender
    ticketClass := inp.ticketClass
    flightDate := inp.flightDate
    departureTime := inp.departureTime
    arrivalDate := arrival.1
    arrivalTime := arrival.2
    seatNumber := 0 }

/-- The function `buy_ticket` (lines 383-439) for one answer to each prompt.
The document typed at the prompt is looked up as typed (line 398) and stored
through `strncpy` (lines 402-403). -/
def buy_ticket (tz : Int) (reg : Registry) (rnd : Nat → Nat) (inp : BookingInput) :
    Registry × BookResult :=
  match find_passenger reg.passengers inp.document with
  | some _ => (reg, .DuplicateDocument)
  | none =>
    let newPassenger := new_passenger tz inp
    let r := assign_random_seat reg.seatMap rnd newPassenger.flightType newPassenger.ticketClass
    let seat := r.1
    if seat = -1 then
      ({ passengers := reg.passengers, seatMap := r.2 }, .NoSeatAvailable)
    else
      ({ passengers := add_passenger reg.passengers { newPassenger with seatNumber := seat },
         seatMap := r.2 }, .Booked seat)

/-- How `modify_passenger` ends. -/
inductive ModifyResult where
  | Modified
  | NotFound
  deriving DecidableEq, Repr

/-- The function `modify_passenger` (lines 441-467). -/
def modify_passenger (reg : Registry) (document firstName lastName phone : CStr)
    (birthDate : Date) (gender : Char) : Registry × ModifyResult :=
  match find_passenger reg.passengers document with
  | none => (reg, .NotFound)
  | some _ =>
    ({ passengers := write_found (fun passenger =>
          { passenger with
            firstName := strncpy_field firstName MAX_NAME_LENGTH
            lastName := strncpy_field lastName MAX_NAME_LENGTH
            phone := strncpy_field phone MAX_PHONE_LENGTH
            birthDate := birthDate
            gender := gender }) reg.passengers document,
       seatMap := reg.seatMap }, .Modified)

/-- How `change_seat` ends, by the message it prints (lines 516, 538, 542,
548). -/
inductive ChangeSeatResult where
  | Updated
  | NotFound
  | SeatOutOfClassRange
  | SeatUnavailable
  deriving DecidableEq, Repr

/-- The conversion `(int)seatValue` of line 534, from `long` to a 32-bit
`int`: a value of the `int` range is kept, any other is reduced modulo 2^32
into that range (the result of the out-of-range conversion is
implementation-defined; this is the two's-complement truncation compilers
perform).  Where `long` has 32 bits itself only the first case occurs. -/
def long_to_int (value : Int) : Int :=
  (value + 2147483648) % 4294967296 - 2147483648

/-- The function `change_seat` (lines 511-549) from the point where `strtol`
has accepted the typed text (lines 523-533 return without any change
otherwise); `seatValue` is the `long` that `strtol` returned. -/
def change_seat (reg : Registry) (document : CStr) (seatValue : Int) :
    Registry × ChangeSeatResult :=
  match find_passenger reg.passengers document with
  | none => (reg, .NotFound)
  | some passenger =>
    let seat := long_to_int seatValue
    let start := seat_range_start passenger.ticketClass
    let end_ := seat_range_end passenger.ticketClass
    if seat < start ∨ seat > end_ then (reg, .SeatOutOfClassRange)
    else if reg.seatMap passenger.flightType seat then (reg, .SeatUnavailable)
    else
      let sm1 := release_seat reg.seatMap passenger.flightType passenger.seatNumber
      let sm2 := sm1.write passenger.flightType seat true
      ({ passengers := write_found (fun p => { p with seatNumber := seat })
           reg.passengers document,
         seatMap := sm2 }, .Updated)

/-- The traversal of `cancel_ticket` (lines 589-605): the first record whose
document equals the typed one, and the list with that node unlinked. -/
def unlink : List Passenger → CStr → Option (Passenger × List Passenger)
  | [], _ => none
  | current :: rest, document =>
    if current.document = document then some (current, rest)
    else
      match unlink rest document with
      | some (found, remaining) => some (found, current :: remaining)
      | none => none

/-- How `cancel_ticket` ends. -/
inductive CancelResult where
  | Removed
  | NotFound
  deriving DecidableEq, Repr

/-- The function `cancel_ticket` (lines 585-607). -/
def cancel_ticket (reg : Registry) (document : CStr) : Registry × CancelResult :=
  match unlink reg.passengers document with
  | some (current, remaining) =>
    ({ passengers := remaining,
       seatMap := release_seat reg.seatMap current.flightType current.seatNumber }, .Removed)
  | none => (reg, .NotFound)

/-- The registry states the program can be in: the initial state, and what
the four state-changing menu entries make of a reachable state, for any
answers to the prompts, any outcome of `rand()` and any fixed zone offset. -/
inductive Reachable : Registry → Prop where
  | initial : Reachable Registry.initial
  | book {reg : Registry} (tz : Int) (rnd : Nat → Nat) (inp : BookingInput) :
      Reachable reg → Reachable (buy_ticket tz reg rnd inp).1
  | modify {reg : Registry} (document firstName lastName phone : CStr) (birthDate : Date)
      (gender : Char) :
      Reachable reg →
      Reachable (modify_passenger reg document firstName lastName phone birthDate gender).1
  | cancel {reg : Registry} (document : CStr) :
      Reachable reg → Reachable (cancel_ticket reg document).1
  | changeSeat {reg : Registry} (document : CStr) (seatValue : Int) :
      Reachable reg → Reachable (change_seat reg document seatValue).1

/-! ## Properties of a registry state -/

/-- The record `p` is of flight type `type` and has `seatNumber = seat`. -/
def holds_seat (type : FlightType) (seat : Int) (p : Passenger) : Bool :=
  decide (p.flightType = type ∧ p.seatNumber = seat)

/-- The number of live records of flight type `type` whose seat is `seat`. -/
def holders (ps : List Passenger) (type : FlightType) (seat : Int) : Nat :=
  ps.countP (holds_seat type seat)

/-- The seat-occupancy invariant: every seat `1..250` of either flight is
marked occupied exactly when one live record of that flight holds it, and is
never held by two. -/
def SeatOccupancy (reg : Registry) : Prop :=
  ∀ (f : FlightType) (s : Int), 1 ≤ s → s ≤ 250 →
    (reg.seatMap f s = true ↔ holders reg.passengers f s = 1) ∧
    holders reg.passengers f s ≤ 1

/-- The class-range invariant: every live record sits in the seat range of
its own ticket class. -/
def ClassRange (reg : Registry) : Prop :=
  ∀ p ∈ reg.passengers,
    (p.ticketClass = .CLASS_FIRST → 1 ≤ p.seatNumber ∧ p.seatNumber ≤ 20) ∧
    (p.ticketClass = .CLASS_ECONOMY → 21 ≤ p.seatNumber ∧ p.seatNumber ≤ 250)

/-- What the specification says of one `change_seat` call for the live record
`p` and the requested number `r`.  Outside the class range of `p` the call
answers `SeatOutOfClassRange`; inside the range on an occupied seat, the own
seat of `p` included, it answers `SeatUnavailable`; both leave the list and the
table as they were.  Otherwise it answers `Updated`, the old seat of `p` is
free, `r` is occupied, every other table entry is as before and the list is
the old one with `p` moved to `r`. -/
def ChangeSeatAtomic (reg : Registry) (p : Passenger) (r : Int) : Prop :=
  let out := change_seat reg p.document r
  let inRange := seat_range_start p.ticketClass ≤ r ∧ r ≤ seat_range_end p.ticketClass
  (¬ inRange →
    out.2 = .SeatOutOfClassRange ∧ out.1.passengers = reg.passengers ∧
    out.1.seatMap = reg.seatMap) ∧
  (inRange → (reg.seatMap p.flightType r = true ∨ r = p.seatNumber) →
    out.2 = .SeatUnavailable ∧ out.1.passengers = reg.passengers ∧
    out.1.seatMap = reg.seatMap) ∧
  (inRange → ¬ (reg.seatMap p.flightType r = true ∨ r = p.seatNumber) →
    out.2 = .Updated ∧
    out.1.seatMap p.flightType p.seatNumber = false ∧
    out.1.seatMap p.flightType r = true ∧
    (∀ (f : FlightType) (s : Int), ¬ (f = p.flightType ∧ (s = r ∨ s = p.seatNumber)) →
      out.1.seatMap f s = reg.seatMap f s) ∧
    ∃ pre post, reg.passengers = pre ++ p :: post ∧
      out.1.passengers = pre ++ { p with seatNumber := r } :: post)

/-- What the specification says of one `cancel_ticket` call for the document
`d`.  When a live record carries `d` the call answers `Removed`, the first
such record is taken out of the list, the table entry of its flight type and
seat is free and every other entry is as before; when none carries `d` the
call answers `NotFound` and nothing changes. -/
def CancelRemovesAndReleases (reg : Registry) (d : CStr) : Prop :=
  let out := cancel_ticket reg d
  ((∃ q ∈ reg.passengers, q.document = d) →
    out.2 = .Removed ∧
    ∃ pre p post, reg.passengers = pre ++ p :: post ∧ (∀ q ∈ pre, q.document ≠ d) ∧
      p.document = d ∧ out.1.passengers = pre ++ post ∧
      out.1.seatMap p.flightType p.seatNumber = false ∧
      ∀ (f : FlightType) (s : Int), ¬ (f = p.flightType ∧ s = p.seatNumber) →
        out.1.seatMap f s = reg.seatMap f s) ∧
  ((∀ q ∈ reg.passengers, q.document ≠ d) →
    out.2 = .NotFound ∧ out.1.passengers = reg.passengers ∧ out.1.seatMap = reg.seatMap)

/-! ## Sample inputs and states -/

/-- A booking for the given flight, class and document with fixed other
answers. -/
def sample_booking (type : FlightType) (ticketClass : TicketClass) (document : CStr) :
    BookingInput :=
  { flightType := type
    document := document
    firstName := ['A', 'n', 'a']
    lastName := ['R', 'u', 'i', 'z']
    phone := ['3', '0', '0']
    birthDate := { day := 1, month := 1, year := 1990 }
    gender := 'F'
    ticketClass := ticketClass
    flightDate := { day := 1, month := 6, year := 2030 }
    departureTime := { hour := 10, minute := 0 } }

/-- A record with the given document, flight, class and seat and fixed other
fields. -/
def sample_passenger (document : CStr) (type : FlightType) (ticketClass : TicketClass)
    (seat : Int) : Passenger :=
  { new_passenger 0 (sample_booking type ticketClass document) with seatNumber := seat }

/-- A document of 32 characters, one more than the `document` field keeps. -/
def long_document : CStr := List.replicate 32 'A'

/-- A seat table in which seats 1 to 19 of either flight are taken. -/
def almost_full_first : SeatMap := fun _ i => decide (1 ≤ i ∧ i ≤ 19)

/-- A state whose first-class seats 1 to 20 are all taken on either flight. -/
def full_first_registry : Registry :=
  { passengers := [], seatMap := fun _ i => decide (1 ≤ i ∧ i ≤ 20) }

/-- The state after one first-class booking on the national flight whose
draw is 4. -/
def one_booking_registry : Registry :=
  (buy_ticket 0 Registry.initial (fun _ => 4)
    (sample_booking .FLIGHT_NATIONAL .CLASS_FIRST ['7'])).1

/-- The state after the same 32-character document was booked on the
international and then on the national flight, first class, every draw 0. -/
def twice_booked_registry : Registry :=
  (buy_ticket 0
    (buy_ticket 0 Registry.initial (fun _ => 0)
      (sample_booking .FLIGHT_INTERNATIONAL .CLASS_FIRST long_document)).1
    (fun _ => 0) (sample_booking .FLIGHT_NATIONAL .CLASS_FIRST long_document)).1

/-! ## The calendar and the booking as the specification words them -/

/-- A leap year as the specification words it: divisible by 4 and either not
divisible by 100 or divisible by 400. -/
def gregorian_leap_year (year : Int) : Prop :=
  4 ∣ year ∧ (¬ 100 ∣ year ∨ 400 ∣ year)

instance (year : Int) : Decidable (gregorian_leap_year year) := by
  unfold gregorian_leap_year; infer_instance

/-- The number of days of a month `1..12` in the Gregorian calendar: 30 for
April, June, September and November, 29 or 28 for February, 31 otherwise. -/
def gregorian_month_length (month year : Int) : Int :=
  if month = 2 then (if gregorian_leap_year year then 29 else 28)
  else if month = 4 ∨ month = 6 ∨ month = 9 ∨ month = 11 then 30
  else 31

/-- The function `list_passengers` (lines 469-478): the records in the order
in which the loop displays them, from `head` along the `next` links. -/
def list_passengers : List Passenger → List Passenger
  | [] => []
  | current :: rest => current :: list_passengers rest

/-- A run of bookings, each with its own `rand()` sequence, one after the
other: the state after the last one. -/
def book_each (tz : Int) : Registry → List ((Nat → Nat) × BookingInput) → Registry
  | reg, [] => reg
  | reg, (rnd, inp) :: rest => book_each tz (buy_ticket tz reg rnd inp).1 rest

/-- The records that a run of bookings links, in the order of the bookings
that ended with a seat. -/
def booked_in_order (tz : Int) : Registry → List ((Nat → Nat) × BookingInput) → List Passenger
  | _, [] => []
  | reg, (rnd, inp) :: rest =>
    match (buy_ticket tz reg rnd inp).2 with
    | .Booked seat =>
      { new_passenger tz inp with seatNumber := seat }
        :: booked_in_order tz (buy_ticket tz reg rnd inp).1 rest
    | _ => booked_in_order tz (buy_ticket tz reg rnd inp).1 rest

/-- What the specification says of one booking whose document is carried by
no live record and whose class range has a free seat: the call ends with a
seat, and the list is the old one followed by one new record that carries the
given fields, the flight code of its flight type and the seat the allocation
returned. -/
def BookingAppendsGiven (tz : Int) (reg : Registry) (rnd : Nat → Nat) (inp : BookingInput) :
    Prop :=
  (∀ q ∈ reg.passengers, q.document ≠ inp.document) →
  (∃ s : Int, seat_range_start inp.ticketClass ≤ s ∧ s ≤ seat_range_end inp.ticketClass ∧
    reg.seatMap inp.flightType s = false) →
  ∃ rec : Passenger,
    (buy_ticket tz reg rnd inp).2 = .Booked rec.seatNumber ∧
    list_passengers (buy_ticket tz reg rnd inp).1.passengers
      = list_passengers reg.passengers ++ [rec] ∧
    rec.flightType = inp.flightType ∧ rec.document = inp.document ∧
    rec.firstName = inp.firstName ∧ rec.lastName = inp.lastName ∧ rec.phone = inp.phone ∧
    rec.birthDate = inp.birthDate ∧ rec.gender = inp.gender ∧
    rec.ticketClass = inp.ticketClass ∧ rec.flightDate = inp.flightDate ∧
    rec.departureTime = inp.departureTime ∧
    rec.flightCode = FLIGHT_CODES inp.flightType ∧
    rec.seatNumber = (assign_random_seat reg.seatMap rnd inp.flightType inp.ticketClass).1

/-- A first name of 64 characters, one more than the `firstName` field keeps. -/
def long_name : CStr := List.replicate 64 'N'

/-- The sample booking with the 64-character first name. -/
def long_name_booking : BookingInput :=
  { sample_booking .FLIGHT_NATIONAL .CLASS_FIRST ['7'] with firstName := long_name }

set_option maxRecDepth 100000

/-! ## Seat table and allocation -/

theorem write_same (sm : SeatMap) (t : FlightType) (s : Int) (v : Bool) :
    sm.write t s v t s = v := by
  simp [SeatMap.write]

theorem write_other (sm : SeatMap) (t t2 : FlightType) (s s2 : Int) (v : Bool)
    (h : ¬ (t2 = t ∧ s2 = s)) : sm.write t s v t2 s2 = sm t2 s2 := by
  simp [SeatMap.write, h]

theorem seat_range_bounds (c : TicketClass) :
    1 ≤ seat_range_start c ∧ seat_range_start c ≤ seat_range_end c ∧ seat_range_end c ≤ 250 := by
  cases c <;> simp [seat_range_start, seat_range_end, FIRST_CLASS_START, FIRST_CLASS_END,
    ECONOMY_CLASS_START, ECONOMY_CLASS_END]

theorem seat_range_first :
    seat_range_start .CLASS_FIRST = 1 ∧ seat_range_end .CLASS_FIRST = 20 := by
  simp [seat_range_start, seat_range_end, FIRST_CLASS_START, FIRST_CLASS_END]

theorem seat_range_economy :
    seat_range_start .CLASS_ECONOMY = 21 ∧ seat_range_end .CLASS_ECONOMY = 250 := by
  simp [seat_range_start, seat_range_end, ECONOMY_CLASS_START, ECONOMY_CLASS_END]

theorem count_available_nonneg (sm : SeatMap) (t : FlightType) (i : Int) (n : Nat) :
    0 ≤ count_available sm t i n := by
  induction n generalizing i with
  | zero => simp [count_available]
  | succ n ih =>
    have := ih (i + 1)
    simp only [count_available]
    split <;> omega

theorem count_available_eq_zero_iff (sm : SeatMap) (t : FlightType) (i : Int) (n : Nat) :
    count_available sm t i n = 0 ↔ ∀ k : Nat, k < n → sm t (i + k) = true := by
  induction n generalizing i with
  | zero => simp [count_available]
  | succ n ih =>
    have hnn := count_available_nonneg sm t (i + 1) n
    simp only [count_available]
    constructor
    · intro h k hk
      by_cases hfree : sm t i = true
      · simp [hfree] at h
        rcases Nat.eq_zero_or_pos k with hk0 | hkpos
        · subst hk0; simpa using hfree
        · have := (ih (i + 1)).1 h (k - 1) (by omega)
          have e : i + 1 + ((k - 1 : Nat) : Int) = i + (k : Int) := by omega
          rwa [e] at this
      · simp [hfree] at h
        omega
    · intro h
      have h0 : sm t i = true := by simpa using h 0 (by omega)
      have hrest : count_available sm t (i + 1) n = 0 := by
        apply (ih (i + 1)).2
        intro k hk
        have := h (k + 1) (by omega)
        have e : i + 1 + (k : Int) = i + ((k + 1 : Nat) : Int) := by push_cast; omega
        rwa [e]
      simp [h0, hrest]

theorem random_phase_some (sm : SeatMap) (t : FlightType) (start end_ : Int) (rnd : Nat → Nat)
    (a n : Nat) (s : Int) (hle : start ≤ end_)
    (h : random_phase sm t start end_ rnd a n = some s) :
    start ≤ s ∧ s ≤ end_ ∧ sm t s = false := by
  induction n generalizing a with
  | zero => simp [random_phase] at h
  | succ n ih =>
    simp only [random_phase] at h
    split at h
    · rename_i hfree
      have hs : start + (rnd a : Int) % (end_ - start + 1) = s := by simpa using h
      have h1 : 0 ≤ (rnd a : Int) % (end_ - start + 1) := Int.emod_nonneg _ (by omega)
      have h2 : (rnd a : Int) % (end_ - start + 1) < end_ - start + 1 :=
        Int.emod_lt_of_pos _ (by omega)
      refine ⟨by omega, by omega, ?_⟩
      rw [← hs]; simpa using hfree
    · exact ih (a + 1) h

theorem sequential_phase_some (sm : SeatMap) (t : FlightType) (i : Int) (n : Nat) (s : Int)
    (h : sequential_phase sm t i n = some s) :
    i ≤ s ∧ s < i + n ∧ sm t s = false := by
  induction n generalizing i with
  | zero => simp [sequential_phase] at h
  | succ n ih =>
    simp only [sequential_phase] at h
    split at h
    · rename_i hfree
      have hs : i = s := by simpa using h
      subst hs
      refine ⟨le_refl _, by push_cast; omega, by simpa using hfree⟩
    · obtain ⟨h1, h2, h3⟩ := ih (i + 1) h
      exact ⟨by omega, by push_cast; omega, h3⟩

theorem sequential_phase_none_iff (sm : SeatMap) (t : FlightType) (i : Int) (n : Nat) :
    sequential_phase sm t i n = none ↔ ∀ k : Nat, k < n → sm t (i + k) = true := by
  induction n generalizing i with
  | zero => simp [sequential_phase]
  | succ n ih =>
    simp only [sequential_phase]
    constructor
    · intro h k hk
      split at h
      · simp at h
      · rename_i hocc
        rcases Nat.eq_zero_or_pos k with hk0 | hkpos
        · subst hk0; simpa using hocc
        · have := (ih (i + 1)).1 h (k - 1) (by omega)
          have e : i + 1 + ((k - 1 : Nat) : Int) = i + (k : Int) := by omega
          rwa [e] at this
    · intro h
      have h0 : sm t i = true := by simpa using h 0 (by omega)
      simp only [h0, Bool.not_true, Bool.false_eq_true, if_false]
      apply (ih (i + 1)).2
      intro k hk
      have := h (k + 1) (by omega)
      have e : i + 1 + (k : Int) = i + ((k + 1 : Nat) : Int) := by push_cast; omega
      rwa [e]

/-- Every index of the loop `for (i = start; i <= end; ++i)` is a seat of the
range and conversely. -/
theorem range_index (start end_ : Int) (hle : start ≤ end_) (P : Int → Prop) :
    (∀ k : Nat, k < (end_ - start + 1).toNat → P (start + k)) ↔
    (∀ s : Int, start ≤ s → s ≤ end_ → P s) := by
  constructor
  · intro h s h1 h2
    have := h (s - start).toNat (by omega)
    have e : start + ((s - start).toNat : Int) = s := by omega
    rwa [e] at this
  · intro h k hk
    exact h _ (by omega) (by omega)

/-- The two ways `assign_random_seat` ends: nothing is free in the range and
it returns `-1` with the table untouched, or it returns a free seat of the
range and marks exactly that seat. -/
theorem assign_random_seat_cases (sm : SeatMap) (rnd : Nat → Nat) (f : FlightType)
    (c : TicketClass) :
    ((∀ s : Int, seat_range_start c ≤ s → s ≤ seat_range_end c → sm f s = true) ∧
      assign_random_seat sm rnd f c = (-1, sm)) ∨
    (∃ s : Int, seat_range_start c ≤ s ∧ s ≤ seat_range_end c ∧ sm f s = false ∧
      assign_random_seat sm rnd f c = (s, sm.write f s true)) := by
  obtain ⟨hb1, hb2, hb3⟩ := seat_range_bounds c
  have hz := count_available_eq_zero_iff sm f (seat_range_start c)
    (seat_range_end c - seat_range_start c + 1).toNat
  rw [range_index _ _ hb2 (fun s => sm f s = true)] at hz
  by_cases hav : count_available sm f (seat_range_start c)
      (seat_range_end c - seat_range_start c + 1).toNat = 0
  · left
    exact ⟨hz.1 hav, by simp [assign_random_seat, hav]⟩
  · right
    simp only [assign_random_seat, hav, if_false]
    cases hr : random_phase sm f (seat_range_start c) (seat_range_end c) rnd 0 1000 with
    | some s =>
      obtain ⟨h1, h2, h3⟩ := random_phase_some sm f _ _ rnd 0 1000 s hb2 hr
      exact ⟨s, h1, h2, h3, rfl⟩
    | none =>
      cases hs : sequential_phase sm f (seat_range_start c)
          (seat_range_end c - seat_range_start c + 1).toNat with
      | some s =>
        obtain ⟨h1, h2, h3⟩ := sequential_phase_some sm f _ _ s hs
        exact ⟨s, h1, by omega, h3, rfl⟩
      | none =>
        exfalso
        apply hav
        apply hz.2
        have := (sequential_phase_none_iff sm f _ _).1 hs
        exact (range_index _ _ hb2 (fun s => sm f s = true)).1 this

/-! ## The passenger list -/

theorem add_passenger_eq_append (ps : List Passenger) (p : Passenger) :
    add_passenger ps p = ps ++ [p] := by
  induction ps with
  | nil => rfl
  | cons q rest ih => simp [add_passenger, ih]

theorem find_passenger_some (ps : List Passenger) (doc : CStr) (p : Passenger)
    (h : find_passenger ps doc = some p) : p ∈ ps ∧ p.document = doc := by
  induction ps with
  | nil => simp [find_passenger] at h
  | cons q rest ih =>
    simp only [find_passenger] at h
    split at h
    · rename_i hq
      have : q = p := by simpa using h
      subst this
      exact ⟨List.mem_cons_self _ _, hq⟩
    · exact ⟨List.mem_cons_of_mem _ (ih h).1, (ih h).2⟩

theorem find_passenger_none (ps : List Passenger) (doc : CStr) :
    find_passenger ps doc = none ↔ ∀ q ∈ ps, q.document ≠ doc := by
  induction ps with
  | nil => simp [find_passenger]
  | cons q rest ih =>
    simp only [find_passenger]
    split
    · rename_i hq
      simp [hq]
    · rename_i hq
      simp [ih, hq]

theorem write_found_none (g : Passenger → Passenger) (ps : List Passenger) (doc : CStr)
    (h : find_passenger ps doc = none) : write_found g ps doc = ps := by
  induction ps with
  | nil => rfl
  | cons q rest ih =>
    simp only [find_passenger] at h
    split at h
    · simp at h
    · rename_i hq
      simp [write_found, hq, ih h]

/-- The list around the record that `find_passenger` returns: the records in
front of it carry other documents, and `write_found` replaces just it. -/
theorem find_passenger_split (g : Passenger → Passenger) (ps : List Passenger) (doc : CStr)
    (p : Passenger) (h : find_passenger ps doc = some p) :
    ∃ pre post, ps = pre ++ p :: post ∧ (∀ q ∈ pre, q.document ≠ doc) ∧
      write_found g ps doc = pre ++ g p :: post := by
  induction ps with
  | nil => simp [find_passenger] at h
  | cons q rest ih =>
    simp only [find_passenger] at h
    split at h
    · rename_i hq
      have : q = p := by simpa using h
      subst this
      exact ⟨[], rest, rfl, by simp, by simp [write_found, hq]⟩
    · rename_i hq
      obtain ⟨pre, post, e1, e2, e3⟩ := ih h
      refine ⟨q :: pre, post, by simp [e1], ?_, by simp [write_found, hq, e3]⟩
      intro x hx
      rcases List.mem_cons.1 hx with hx | hx
      · subst hx; exact hq
      · exact e2 x hx

/-- The traversal of `cancel_ticket` finds the record `find_passenger` finds
and unlinks just it. -/
theorem unlink_split (ps : List Passenger) (doc : CStr) :
    (find_passenger ps doc = none ∧ unlink ps doc = none) ∨
    (∃ pre p post, ps = pre ++ p :: post ∧ (∀ q ∈ pre, q.document ≠ doc) ∧ p.document = doc ∧
      find_passenger ps doc = some p ∧ unlink ps doc = some (p, pre ++ post)) := by
  induction ps with
  | nil => left; simp [find_passenger, unlink]
  | cons q rest ih =>
    by_cases hq : q.document = doc
    · right
      exact ⟨[], q, rest, rfl, by simp, hq, by simp [find_passenger, hq], by simp [unlink, hq]⟩
    · rcases ih with ⟨h1, h2⟩ | ⟨pre, p, post, e1, e2, e3, e4, e5⟩
      · left; simp [find_passenger, unlink, hq, h1, h2]
      · right
        refine ⟨q :: pre, p, post, by simp [e1], ?_, e3, by simp [find_passenger, hq, e4],
          by simp [unlink, hq, e5]⟩
        intro x hx
        rcases List.mem_cons.1 hx with hx | hx
        · subst hx; exact hq
        · exact e2 x hx

/-! ## Counting the holders of a seat -/

theorem holders_append (xs ys : List Passenger) (f : FlightType) (s : Int) :
    holders (xs ++ ys) f s = holders xs f s + holders ys f s := by
  simp [holders, List.countP_append]

theorem holders_cons (p : Passenger) (ps : List Passenger) (f : FlightType) (s : Int) :
    holders (p :: ps) f s = holders ps f s + (if holds_seat f s p = true then 1 else 0) := by
  simp [holders, List.countP_cons]

theorem holders_nil (f : FlightType) (s : Int) : holders [] f s = 0 := rfl

theorem holders_split (pre post : List Passenger) (p : Passenger) (f : FlightType) (s : Int) :
    holders (pre ++ p :: post) f s
      = holders pre f s + holders post f s + (if holds_seat f s p = true then 1 else 0) := by
  rw [holders_append, holders_cons]; omega

theorem holds_seat_iff (f : FlightType) (s : Int) (p : Passenger) :
    holds_seat f s p = true ↔ p.flightType = f ∧ p.seatNumber = s := by
  simp [holds_seat]

/-- The count form of the occupancy invariant. -/
theorem seatOccupancy_iff_count (reg : Registry) :
    SeatOccupancy reg ↔
    ∀ (f : FlightType) (s : Int), 1 ≤ s → s ≤ 250 →
      holders reg.passengers f s = if reg.seatMap f s = true then 1 else 0 := by
  constructor
  · intro h f s h1 h2
    obtain ⟨hiff, hle⟩ := h f s h1 h2
    by_cases hocc : reg.seatMap f s = true
    · simp [hocc, hiff.1 hocc]
    · have hne : holders reg.passengers f s ≠ 1 := fun h1 => hocc (hiff.2 h1)
      have hf : reg.seatMap f s = false := by simpa using hocc
      rw [hf]
      simp only [Bool.false_eq_true, if_false]
      omega
  · intro h f s h1 h2
    have := h f s h1 h2
    by_cases hocc : reg.seatMap f s = true
    · simp only [hocc, if_true] at this
      simp [hocc, this]
    · have hf : reg.seatMap f s = false := by simpa using hocc
      rw [hf] at this
      simp only [Bool.false_eq_true, if_false] at this
      simp [hf, this]

/-! ## The operations keep the occupancy invariant -/

theorem release_seat_apply (sm : SeatMap) (t : FlightType) (n : Int) (f : FlightType) (s : Int) :
    release_seat sm t n f s
      = if (1 ≤ n ∧ n ≤ 250) ∧ f = t ∧ s = n then false else sm f s := by
  simp only [release_seat, FIRST_CLASS_START, ECONOMY_CLASS_END]
  by_cases h : n < 1 ∨ n > 250
  · have : ¬ (1 ≤ n ∧ n ≤ 250) := by omega
    simp [h, this]
  · have : 1 ≤ n ∧ n ≤ 250 := by omega
    simp [h, this, SeatMap.write]

theorem seatOccupancy_initial : SeatOccupancy Registry.initial := by
  intro f s _ _
  simp [Registry.initial, holders]

/-- Linking a record that takes a free seat of `1..250` and marking that seat
keeps the invariant. -/
theorem seatOccupancy_link (reg : Registry) (np : Passenger) (s0 : Int)
    (h : SeatOccupancy reg) (hs1 : 1 ≤ s0) (hs2 : s0 ≤ 250)
    (hfree : reg.seatMap np.flightType s0 = false) (hseat : np.seatNumber = s0) :
    SeatOccupancy { passengers := add_passenger reg.passengers np,
                    seatMap := reg.seatMap.write np.flightType s0 true } := by
  rw [seatOccupancy_iff_count] at h ⊢
  intro f s g1 g2
  have hc := h f s g1 g2
  simp only [add_passenger_eq_append, holders_append, holders_cons, holders_nil]
  by_cases hfs : f = np.flightType ∧ s = s0
  · obtain ⟨e1, e2⟩ := hfs
    subst e1 e2
    rw [hfree] at hc
    have hh : holds_seat np.flightType s np = true := (holds_seat_iff _ _ _).2 ⟨rfl, hseat⟩
    simp [hh, write_same, hc]
  · have hh : ¬ holds_seat f s np = true := by
      rw [holds_seat_iff]
      intro hc2
      exact hfs ⟨hc2.1.symm, hc2.2.symm.trans hseat⟩
    have hw := write_other reg.seatMap np.flightType f s0 s true hfs
    simp [hw, hh, hc]

theorem seatOccupancy_buy_ticket (tz : Int) (reg : Registry) (rnd : Nat → Nat)
    (inp : BookingInput) (h : SeatOccupancy reg) :
    SeatOccupancy (buy_ticket tz reg rnd inp).1 := by
  unfold buy_ticket
  cases hfind : find_passenger reg.passengers inp.document with
  | some q => simpa using h
  | none =>
    simp only
    have hft : (new_passenger tz inp).flightType = inp.flightType := rfl
    have htc : (new_passenger tz inp).ticketClass = inp.ticketClass := rfl
    rw [hft, htc]
    rcases assign_random_seat_cases reg.seatMap rnd inp.flightType inp.ticketClass with
      ⟨_, heq⟩ | ⟨s0, h1, h2, h3, heq⟩
    · rw [heq]; simpa using h
    · rw [heq]
      obtain ⟨hb1, hb2, hb3⟩ := seat_range_bounds inp.ticketClass
      have hne : s0 ≠ -1 := by omega
      simp only [hne, if_false]
      exact seatOccupancy_link reg { new_passenger tz inp with seatNumber := s0 } s0 h
        (by omega) (by omega) h3 rfl

theorem seatOccupancy_modify_passenger (reg : Registry) (document firstName lastName phone : CStr)
    (birthDate : Date) (gender : Char) (h : SeatOccupancy reg) :
    SeatOccupancy (modify_passenger reg document firstName lastName phone birthDate gender).1 := by
  unfold modify_passenger
  cases hfind : find_passenger reg.passengers document with
  | none => simpa using h
  | some p =>
    simp only
    obtain ⟨pre, post, e1, _, e3⟩ := find_passenger_split (fun passenger =>
          { passenger with
            firstName := strncpy_field firstName MAX_NAME_LENGTH
            lastName := strncpy_field lastName MAX_NAME_LENGTH
            phone := strncpy_field phone MAX_PHONE_LENGTH
            birthDate := birthDate
            gender := gender }) reg.passengers document p hfind
    rw [e3]
    intro f s g1 g2
    have := h f s g1 g2
    rw [e1] at this
    simpa [holders_split, holds_seat] using this

theorem seatOccupancy_cancel_ticket (reg : Registry) (document : CStr) (h : SeatOccupancy reg) :
    SeatOccupancy (cancel_ticket reg document).1 := by
  unfold cancel_ticket
  rcases unlink_split reg.passengers document with ⟨_, h2⟩ | ⟨pre, p, post, e1, _, _, _, e5⟩
  · rw [h2]; simpa using h
  · rw [e5]
    simp only
    rw [seatOccupancy_iff_count] at h ⊢
    intro f s g1 g2
    have hc := h f s g1 g2
    rw [e1, holders_split] at hc
    simp only [holders_append, release_seat_apply]
    by_cases hp : holds_seat f s p = true
    · obtain ⟨ef, es⟩ := (holds_seat_iff f s p).1 hp
      subst ef es
      have hr : 1 ≤ p.seatNumber ∧ p.seatNumber ≤ 250 := ⟨g1, g2⟩
      simp only [hp, if_true] at hc
      simp only [hr, and_self, if_true, Bool.false_eq_true, if_false]
      rcases Bool.eq_false_or_eq_true (reg.seatMap p.flightType p.seatNumber) with hocc | hocc <;>
        rw [hocc] at hc <;>
        simp only [Bool.false_eq_true, if_false, if_true] at hc <;> omega
    · have : ¬ ((1 ≤ p.seatNumber ∧ p.seatNumber ≤ 250) ∧ f = p.flightType ∧ s = p.seatNumber) := by
        intro hc2
        exact hp ((holds_seat_iff f s p).2 ⟨hc2.2.1.symm, hc2.2.2.symm⟩)
      simp only [this, if_false]
      simp only [hp, if_false] at hc
      simpa using hc

/-- Moving one record of the list to a free seat of `1..250`, releasing its
old seat and marking the new one, keeps the invariant. -/
theorem seatOccupancy_move (reg : Registry) (pre post : List Passenger) (p p2 : Passenger)
    (seat : Int) (h : SeatOccupancy reg) (e1 : reg.passengers = pre ++ p :: post)
    (hs1 : 1 ≤ seat) (hs2 : seat ≤ 250) (hfree : reg.seatMap p.flightType seat = false)
    (hf : p2.flightType = p.flightType) (hseat : p2.seatNumber = seat) :
    SeatOccupancy { passengers := pre ++ p2 :: post,
                    seatMap := (release_seat reg.seatMap p.flightType p.seatNumber).write
                      p.flightType seat true } := by
  rw [seatOccupancy_iff_count] at h ⊢
  intro f s g1 g2
  have hc := h f s g1 g2
  have hseat0 := h p.flightType seat hs1 hs2
  rw [e1, holders_split] at hc hseat0
  simp only [holders_split, SeatMap.write, release_seat_apply]
  rw [hfree] at hseat0
  simp only [Bool.false_eq_true, if_false] at hseat0
  have hpseat : ¬ holds_seat p.flightType seat p = true := by
    intro hc2; simp [hc2] at hseat0
  have hne : p.seatNumber ≠ seat := by
    intro hc2; exact hpseat ((holds_seat_iff _ _ _).2 ⟨rfl, hc2⟩)
  by_cases hnew : f = p.flightType ∧ s = seat
  · obtain ⟨e4, e5⟩ := hnew
    subst e4 e5
    have hh : holds_seat p.flightType s p2 = true := (holds_seat_iff _ _ _).2 ⟨hf, hseat⟩
    simp only [hh, if_true, and_self]
    omega
  · have hh : ¬ holds_seat f s p2 = true := by
      rw [holds_seat_iff]
      intro hc2; exact hnew ⟨hc2.1.symm.trans hf, hc2.2.symm.trans hseat⟩
    simp only [hh, hnew, if_false]
    by_cases hp : holds_seat f s p = true
    · obtain ⟨ef, es⟩ := (holds_seat_iff f s p).1 hp
      subst ef es
      have hr : 1 ≤ p.seatNumber ∧ p.seatNumber ≤ 250 := ⟨g1, g2⟩
      simp only [hp, if_true] at hc
      simp only [hr, and_self, if_true, Bool.false_eq_true, if_false]
      rcases Bool.eq_false_or_eq_true (reg.seatMap p.flightType p.seatNumber) with hocc | hocc <;>
        rw [hocc] at hc <;>
        simp only [Bool.false_eq_true, if_false, if_true] at hc <;> omega
    · have : ¬ ((1 ≤ p.seatNumber ∧ p.seatNumber ≤ 250) ∧ f = p.flightType ∧
          s = p.seatNumber) := by
        intro hc2
        exact hp ((holds_seat_iff f s p).2 ⟨hc2.2.1.symm, hc2.2.2.symm⟩)
      simp only [this, if_false]
      simp only [hp, if_false] at hc
      simpa using hc

theorem seatOccupancy_change_seat (reg : Registry) (document : CStr) (seatValue : Int)
    (h : SeatOccupancy reg) : SeatOccupancy (change_seat reg document seatValue).1 := by
  unfold change_seat
  generalize long_to_int seatValue = seat
  cases hfind : find_passenger reg.passengers document with
  | none => simpa using h
  | some p =>
    simp only
    split
    · exact h
    · rename_i hrange
      split
      · exact h
      · rename_i hfree
        obtain ⟨hb1, hb2, hb3⟩ := seat_range_bounds p.ticketClass
        obtain ⟨pre, post, e1, _, e3⟩ := find_passenger_split
          (fun q => { q with seatNumber := seat }) reg.passengers document p hfind
        simp only
        rw [e3]
        exact seatOccupancy_move reg pre post p _ seat h e1 (by omega) (by omega)
          (by simpa using hfree) rfl rfl

/-! ## The operations keep the class-range invariant -/

/-- The seat lies in the range of the class, in the numbers of the
specification. -/
theorem class_range_of_bounds (c : TicketClass) (s : Int)
    (h1 : seat_range_start c ≤ s) (h2 : s ≤ seat_range_end c) :
    (c = .CLASS_FIRST → 1 ≤ s ∧ s ≤ 20) ∧ (c = .CLASS_ECONOMY → 21 ≤ s ∧ s ≤ 250) := by
  cases c
  · rw [seat_range_first.1] at h1
    rw [seat_range_first.2] at h2
    exact ⟨fun _ => ⟨h1, h2⟩, fun h => (by cases h)⟩
  · rw [seat_range_economy.1] at h1
    rw [seat_range_economy.2] at h2
    exact ⟨fun h => (by cases h), fun _ => ⟨h1, h2⟩⟩

theorem classRange_initial : ClassRange Registry.initial := by
  intro p hp
  simp [Registry.initial] at hp

theorem classRange_buy_ticket (tz : Int) (reg : Registry) (rnd : Nat → Nat)
    (inp : BookingInput) (h : ClassRange reg) :
    ClassRange (buy_ticket tz reg rnd inp).1 := by
  unfold buy_ticket
  cases hfind : find_passenger reg.passengers inp.document with
  | some q => simpa using h
  | none =>
    simp only
    have hft : (new_passenger tz inp).flightType = inp.flightType := rfl
    have htc : (new_passenger tz inp).ticketClass = inp.ticketClass := rfl
    rw [hft, htc]
    rcases assign_random_seat_cases reg.seatMap rnd inp.flightType inp.ticketClass with
      ⟨_, heq⟩ | ⟨s0, h1, h2, h3, heq⟩
    · rw [heq]; simpa using h
    · rw [heq]
      obtain ⟨hb1, hb2, hb3⟩ := seat_range_bounds inp.ticketClass
      have hne : s0 ≠ -1 := by omega
      simp only [hne, if_false]
      intro p hp
      simp only [add_passenger_eq_append, List.mem_append, List.mem_singleton] at hp
      rcases hp with hp | hp
      · exact h p hp
      · subst hp
        exact class_range_of_bounds inp.ticketClass s0 h1 h2

theorem classRange_modify_passenger (reg : Registry) (document firstName lastName phone : CStr)
    (birthDate : Date) (gender : Char) (h : ClassRange reg) :
    ClassRange (modify_passenger reg document firstName lastName phone birthDate gender).1 := by
  unfold modify_passenger
  cases hfind : find_passenger reg.passengers document with
  | none => simpa using h
  | some p =>
    simp only
    obtain ⟨pre, post, e1, _, e3⟩ := find_passenger_split (fun passenger =>
          { passenger with
            firstName := strncpy_field firstName MAX_NAME_LENGTH
            lastName := strncpy_field lastName MAX_NAME_LENGTH
            phone := strncpy_field phone MAX_PHONE_LENGTH
            birthDate := birthDate
            gender := gender }) reg.passengers document p hfind
    rw [e3]
    intro q hq
    have hp := h p (by rw [e1]; simp)
    simp only [List.mem_append, List.mem_cons] at hq
    rcases hq with hq | hq | hq
    · exact h q (by rw [e1]; simp [hq])
    · subst hq; exact hp
    · exact h q (by rw [e1]; simp [hq])

theorem classRange_cancel_ticket (reg : Registry) (document : CStr) (h : ClassRange reg) :
    ClassRange (cancel_ticket reg document).1 := by
  unfold cancel_ticket
  rcases unlink_split reg.passengers document with ⟨_, h2⟩ | ⟨pre, p, post, e1, _, _, _, e5⟩
  · rw [h2]; simpa using h
  · rw [e5]
    intro q hq
    simp only [List.mem_append] at hq
    exact h q (by rw [e1]; rcases hq with hq | hq <;> simp [hq])

theorem classRange_change_seat (reg : Registry) (document : CStr) (seatValue : Int)
    (h : ClassRange reg) : ClassRange (change_seat reg document seatValue).1 := by
  unfold change_seat
  generalize long_to_int seatValue = seat
  cases hfind : find_passenger reg.passengers document with
  | none => simpa using h
  | some p =>
    simp only
    split
    · exact h
    · rename_i hrange
      split
      · exact h
      · obtain ⟨pre, post, e1, _, e3⟩ := find_passenger_split
          (fun q => { q with seatNumber := seat }) reg.passengers document p hfind
        simp only
        rw [e3]
        intro q hq
        simp only [List.mem_append, List.mem_cons] at hq
        rcases hq with hq | hq | hq
        · exact h q (by rw [e1]; simp [hq])
        · subst hq
          exact class_range_of_bounds p.ticketClass seat (by omega) (by omega)
        · exact h q (by rw [e1]; simp [hq])

/-! ## Reachable states -/

theorem seatOccupancy_of_reachable (reg : Registry) (h : Reachable reg) : SeatOccupancy reg := by
  induction h with
  | initial => exact seatOccupancy_initial
  | book tz rnd inp _ ih => exact seatOccupancy_buy_ticket tz _ rnd inp ih
  | modify d fn ln ph bd g _ ih => exact seatOccupancy_modify_passenger _ d fn ln ph bd g ih
  | cancel d _ ih => exact seatOccupancy_cancel_ticket _ d ih
  | changeSeat d seat _ ih => exact seatOccupancy_change_seat _ d seat ih

theorem classRange_of_reachable (reg : Registry) (h : Reachable reg) : ClassRange reg := by
  induction h with
  | initial => exact classRange_initial
  | book tz rnd inp _ ih => exact classRange_buy_ticket tz _ rnd inp ih
  | modify d fn ln ph bd g _ ih => exact classRange_modify_passenger _ d fn ln ph bd g ih
  | cancel d _ ih => exact classRange_cancel_ticket _ d ih
  | changeSeat d seat _ ih => exact classRange_change_seat _ d seat ih

/-! ## `change_seat` and `buy_ticket` on a state with the invariant -/

theorem long_to_int_of_fits (v : Int) (h1 : -2147483648 ≤ v) (h2 : v ≤ 2147483647) :
    long_to_int v = v := by
  unfold long_to_int
  omega

/-- A record of the list holds its own seat. -/
theorem holders_pos_of_mem (ps : List Passenger) (p : Passenger) (hp : p ∈ ps) :
    1 ≤ holders ps p.flightType p.seatNumber := by
  obtain ⟨pre, post, e⟩ := List.append_of_mem hp
  rw [e, holders_split]
  have : holds_seat p.flightType p.seatNumber p = true := (holds_seat_iff _ _ _).2 ⟨rfl, rfl⟩
  simp [this]

/-- A booking that ends with a seat took a seat of the class range that was
free before the call. -/
theorem buy_ticket_booked (tz : Int) (reg : Registry) (rnd : Nat → Nat) (inp : BookingInput)
    (s : Int) (h : (buy_ticket tz reg rnd inp).2 = .Booked s) :
    seat_range_start inp.ticketClass ≤ s ∧ s ≤ seat_range_end inp.ticketClass ∧
    reg.seatMap inp.flightType s = false := by
  unfold buy_ticket at h
  cases hfind : find_passenger reg.passengers inp.document with
  | some q => rw [hfind] at h; simp at h
  | none =>
    rw [hfind] at h
    simp only at h
    have hft : (new_passenger tz inp).flightType = inp.flightType := rfl
    have htc : (new_passenger tz inp).ticketClass = inp.ticketClass := rfl
    rw [hft, htc] at h
    rcases assign_random_seat_cases reg.seatMap rnd inp.flightType inp.ticketClass with
      ⟨_, heq⟩ | ⟨s0, h1, h2, h3, heq⟩
    · rw [heq] at h; simp at h
    · rw [heq] at h
      obtain ⟨hb1, hb2, hb3⟩ := seat_range_bounds inp.ticketClass
      have hne : s0 ≠ -1 := by omega
      simp only [hne, if_false, BookResult.Booked.injEq] at h
      subst h
      exact ⟨h1, h2, h3⟩

/-- What `change_seat` does when the state has the occupancy invariant, `p` is
the record its document finds, the seat of `p` is a seat of the table and the
typed number fits the `int`: the three cases of `ChangeSeatAtomic`. -/
theorem change_seat_found (reg : Registry) (p : Passenger) (r : Int)
    (hinv : SeatOccupancy reg)
    (hfind : find_passenger reg.passengers p.document = some p)
    (h1 : 1 ≤ p.seatNumber) (h2 : p.seatNumber ≤ 250)
    (hr1 : -2147483648 ≤ r) (hr2 : r ≤ 2147483647) : ChangeSeatAtomic reg p r := by
  obtain ⟨hb1, hb2, hb3⟩ := seat_range_bounds p.ticketClass
  unfold ChangeSeatAtomic change_seat
  rw [hfind, long_to_int_of_fits r hr1 hr2]
  simp only
  refine ⟨?_, ?_, ?_⟩
  · intro hout
    have hcond : r < seat_range_start p.ticketClass ∨ r > seat_range_end p.ticketClass := by
      omega
    simp [hcond]
  · intro hin hocc
    have hcond : ¬ (r < seat_range_start p.ticketClass ∨ r > seat_range_end p.ticketClass) := by
      omega
    have hsm : reg.seatMap p.flightType r = true := by
      rcases hocc with hocc | hown
      · exact hocc
      · subst hown
        obtain ⟨hiff, hle⟩ := hinv p.flightType p.seatNumber h1 h2
        have := holders_pos_of_mem reg.passengers p (find_passenger_some _ _ _ hfind).1
        exact hiff.2 (by omega)
    simp [hcond, hsm]
  · intro hin hfree
    have hcond : ¬ (r < seat_range_start p.ticketClass ∨ r > seat_range_end p.ticketClass) := by
      omega
    have hsm : ¬ reg.seatMap p.flightType r = true := fun h => hfree (Or.inl h)
    have hne : r ≠ p.seatNumber := fun h => hfree (Or.inr h)
    have hsmf : reg.seatMap p.flightType r = false := by simpa using hsm
    simp only [hcond, hsmf, if_false, Bool.false_eq_true]
    obtain ⟨pre, post, e1, _, e3⟩ := find_passenger_split
      (fun q => { q with seatNumber := r }) reg.passengers p.document p hfind
    refine ⟨trivial, ?_, ?_, ?_, pre, post, e1, e3⟩
    · have hno : ¬ (p.flightType = p.flightType ∧ p.seatNumber = r) := fun h => hne h.2.symm
      rw [write_other _ _ _ _ _ _ hno, release_seat_apply]
      simp [h1, h2]
    · exact write_same _ _ _ _
    · intro f s hfs
      have hno : ¬ (f = p.flightType ∧ s = r) := fun h => hfs ⟨h.1, Or.inl h.2⟩
      rw [write_other _ _ _ _ _ _ hno, release_seat_apply]
      have hno2 : ¬ ((1 ≤ p.seatNumber ∧ p.seatNumber ≤ 250) ∧ f = p.flightType ∧
          s = p.seatNumber) := fun h => hfs ⟨h.2.1, Or.inr h.2.2⟩
      simp only [hno2, if_false]

/-- What `cancel_ticket` does in any state: the first record carrying the
document is unlinked, the entry of its flight type and seat is cleared when
the seat number is in 1..250 (`release_seat` ignores other numbers), and no
other entry changes; without such a record nothing changes. -/
theorem cancel_ticket_guarded (reg : Registry) (d : CStr) :
    ((∃ q ∈ reg.passengers, q.document = d) →
      (cancel_ticket reg d).2 = .Removed ∧
      ∃ pre p post, reg.passengers = pre ++ p :: post ∧ (∀ q ∈ pre, q.document ≠ d) ∧
        p.document = d ∧ (cancel_ticket reg d).1.passengers = pre ++ post ∧
        (1 ≤ p.seatNumber ∧ p.seatNumber ≤ 250 →
          (cancel_ticket reg d).1.seatMap p.flightType p.seatNumber = false) ∧
        (¬ (1 ≤ p.seatNumber ∧ p.seatNumber ≤ 250) →
          (cancel_ticket reg d).1.seatMap = reg.seatMap) ∧
        ∀ (f : FlightType) (s : Int), ¬ (f = p.flightType ∧ s = p.seatNumber) →
          (cancel_ticket reg d).1.seatMap f s = reg.seatMap f s) ∧
    ((∀ q ∈ reg.passengers, q.document ≠ d) →
      (cancel_ticket reg d).2 = .NotFound ∧
      (cancel_ticket reg d).1.passengers = reg.passengers ∧
      (cancel_ticket reg d).1.seatMap = reg.seatMap) := by
  unfold cancel_ticket
  rcases unlink_split reg.passengers d with ⟨h1, h2⟩ | ⟨pre, p, post, e1, e2, e3, e4, e5⟩
  · rw [h2]
    refine ⟨?_, fun _ => ⟨rfl, rfl, rfl⟩⟩
    rintro ⟨q, hq, hd⟩
    exact absurd hd ((find_passenger_none _ _).1 h1 q hq)
  · rw [e5]
    refine ⟨fun _ => ⟨rfl, pre, p, post, e1, e2, e3, rfl, ?_, ?_, ?_⟩, ?_⟩
    · intro hr
      simp only [release_seat_apply]
      simp [hr]
    · intro hr
      funext f s
      simp only [release_seat_apply]
      simp [hr]
    · intro f s hfs
      simp only [release_seat_apply]
      have : ¬ ((1 ≤ p.seatNumber ∧ p.seatNumber ≤ 250) ∧ f = p.flightType ∧ s = p.seatNumber) :=
        fun h => hfs h.2
      simp only [this, if_false]
    · intro hnone
      exact absurd e3 (hnone p (by rw [e1]; simp))

/-! ## Calendar arithmetic -/

theorem days_in_month_cases (m y : Int) (h1 : 1 ≤ m) (h2 : m ≤ 12) :
    (m = 1 ∧ days_in_month m y = 31) ∨ (m = 2 ∧ days_in_month m y = (if y % 4 = 0 ∧ (y % 100 ≠ 0 ∨ y % 400 = 0) then 29 else 28)) ∨
    (m = 3 ∧ days_in_month m y = 31) ∨ (m = 4 ∧ days_in_month m y = 30) ∨
    (m = 5 ∧ days_in_month m y = 31) ∨ (m = 6 ∧ days_in_month m y = 30) ∨
    (m = 7 ∧ days_in_month m y = 31) ∨ (m = 8 ∧ days_in_month m y = 31) ∨
    (m = 9 ∧ days_in_month m y = 30) ∨ (m = 10 ∧ days_in_month m y = 31) ∨
    (m = 11 ∧ days_in_month m y = 30) ∨ (m = 12 ∧ days_in_month m y = 31) := by
  have : m = 1 ∨ m = 2 ∨ m = 3 ∨ m = 4 ∨ m = 5 ∨ m = 6 ∨ m = 7 ∨ m = 8 ∨ m = 9 ∨ m = 10 ∨ m = 11 ∨ m = 12 := by omega
  rcases this with h | h | h | h | h | h | h | h | h | h | h | h <;> subst h <;>
    simp [days_in_month]

theorem day_number_digits (E C Q K doy : Int) (hC0 : 0 ≤ C) (hC : C ≤ 3) (hQ0 : 0 ≤ Q) (hQ : Q ≤ 24)
    (hK0 : 0 ≤ K) (hK : K ≤ 3) (h2 : 0 ≤ doy) (h3 : doy ≤ 365)
    (h4 : doy = 365 → K = 3 ∧ (Q ≠ 24 ∨ C = 3)) :
    let n := 146097 * E + 36524 * C + 1461 * Q + 365 * K + doy
    let era := n / 146097
    let doe := n % 146097
    let cent := min (doe / 36524) 3
    let doc := doe - cent * 36524
    let quad := doc / 1461
    let doq := doc % 1461
    let yr := min (doq / 365) 3
    era = E ∧ cent = C ∧ quad = Q ∧ yr = K ∧ doq - yr * 365 = doy := by
  intro n era doe cent doc quad doq yr
  have he : era = E := by omega
  have hdoe : doe = 36524 * C + 1461 * Q + 365 * K + doy := by omega
  have hc : cent = C := by omega
  have hdoc : doc = 1461 * Q + 365 * K + doy := by omega
  have hq : quad = Q := by omega
  have hdoq : doq = 365 * K + doy := by omega
  have hyr : yr = K := by omega
  omega

theorem day_number_split (y1 doy : Int) (h2 : 0 ≤ doy) (h3 : doy ≤ 365)
    (h4 : doy = 365 → (y1 + 1) % 4 = 0 ∧ ((y1 + 1) % 100 ≠ 0 ∨ (y1 + 1) % 400 = 0)) :
    let n := 365 * y1 + y1 / 4 - y1 / 100 + y1 / 400 + doy
    let era := n / 146097
    let doe := n % 146097
    let cent := min (doe / 36524) 3
    let doc := doe - cent * 36524
    let quad := doc / 1461
    let doq := doc % 1461
    let yr := min (doq / 365) 3
    400 * era + 100 * cent + 4 * quad + yr = y1 ∧ doq - yr * 365 = doy := by
  intro n
  have hn : n = 146097 * (y1 / 400) + 36524 * (y1 % 400 / 100) + 1461 * (y1 % 100 / 4) + 365 * (y1 % 4) + doy := by
    omega
  have key := day_number_digits (y1 / 400) (y1 % 400 / 100) (y1 % 100 / 4) (y1 % 4) doy
    (by omega) (by omega) (by omega) (by omega) (by omega) (by omega) h2 h3 (by omega)
  simp only [] at key
  rw [← hn] at key
  intro era doe cent doc quad doq yr
  obtain ⟨k1, k2, k3, k4, k5⟩ := key
  refine ⟨?_, k5⟩
  have e1 : era = y1 / 400 := k1
  have e2 : cent = y1 % 400 / 100 := k2
  have e3 : quad = y1 % 100 / 4 := k3
  have e4 : yr = y1 % 4 := k4
  rw [e1, e2, e3, e4]
  omega

theorem civil_from_days_from_civil (y m d : Int) (hm1 : 1 ≤ m) (hm2 : m ≤ 12) (hd1 : 1 ≤ d)
    (hd2 : d ≤ days_in_month m y) : civil_from_days (days_from_civil y m d) = (y, m, d) := by
  have hdim := days_in_month_cases m y hm1 hm2
  -- the March-based year and the day of that year
  have hy0 : y + (m - 1) / 12 = y := by omega
  have hm0 : (m - 1) % 12 = m - 1 := by omega
  obtain ⟨y1, hy1⟩ : ∃ y1 : Int, y1 = if m - 1 < 2 then y - 1 else y := ⟨_, rfl⟩
  obtain ⟨mp, hmp⟩ : ∃ mp : Int, mp = if m - 1 < 2 then m - 1 + 10 else m - 1 - 2 := ⟨_, rfl⟩
  obtain ⟨doy, hdoy⟩ : ∃ doy : Int, doy = (153 * mp + 2) / 5 + d - 1 := ⟨_, rfl⟩
  have hdfc : days_from_civil y m d + 719468 = 365 * y1 + y1 / 4 - y1 / 100 + y1 / 400 + doy := by
    simp only [days_from_civil, hy0, hm0, ← hy1, ← hmp]
    omega
  have hb : 0 ≤ doy ∧ doy ≤ 365 ∧ (doy = 365 → (y1 + 1) % 4 = 0 ∧ ((y1 + 1) % 100 ≠ 0 ∨ (y1 + 1) % 400 = 0)) := by
    rcases hdim with h | h | h | h | h | h | h | h | h | h | h | h <;>
      obtain ⟨h, h'⟩ := h <;> subst h <;> rw [h'] at hd2 <;> simp at hy1 hmp <;> subst hmp <;>
      (try split at hd2) <;> omega
  have key := day_number_split y1 doy hb.1 hb.2.1 hb.2.2
  simp only [] at key
  rw [← hdfc] at key
  obtain ⟨k1, k2⟩ := key
  simp only [civil_from_days, k1, k2]
  rcases hdim with h | h | h | h | h | h | h | h | h | h | h | h <;>
    obtain ⟨h, h'⟩ := h <;> subst h <;> rw [h'] at hd2 <;> simp at hy1 hmp <;> subst hmp <;>
    (try split at hd2) <;> simp only [Prod.mk.injEq] <;> refine ⟨?_, ?_, ?_⟩ <;> (try split) <;> omega

theorem days_from_civil_next_day (y m d : Int) (hm1 : 1 ≤ m) (hm2 : m ≤ 12) (hd1 : 1 ≤ d)
    (hd2 : d ≤ days_in_month m y) :
    days_from_civil (next_day ⟨d, m, y⟩).year (next_day ⟨d, m, y⟩).month (next_day ⟨d, m, y⟩).day
      = days_from_civil y m d + 1 ∧
    1 ≤ (next_day ⟨d, m, y⟩).month ∧ (next_day ⟨d, m, y⟩).month ≤ 12 ∧
    1 ≤ (next_day ⟨d, m, y⟩).day ∧
    (next_day ⟨d, m, y⟩).day ≤ days_in_month (next_day ⟨d, m, y⟩).month (next_day ⟨d, m, y⟩).year := by
  have hdim := days_in_month_cases m y hm1 hm2
  simp only [next_day]
  by_cases hlt : d < days_in_month m y
  · simp only [hlt, if_true]
    refine ⟨?_, hm1, hm2, by omega, by omega⟩
    simp only [days_from_civil]; omega
  · simp only [hlt, if_false]
    have hd : d = days_in_month m y := by omega
    by_cases h12 : m < 12
    · simp only [h12, if_true]
      have hdim2 := days_in_month_cases (m + 1) y (by omega) (by omega)
      refine ⟨?_, by omega, by omega, by omega, by omega⟩
      rcases hdim with h | h | h | h | h | h | h | h | h | h | h | h <;>
        obtain ⟨h, h'⟩ := h <;> subst h <;> rw [h'] at hd <;> subst hd <;>
        simp only [days_from_civil] <;> (try split) <;> omega
    · simp only [h12, if_false]
      have hm : m = 12 := by omega
      subst hm
      have h31 : days_in_month 12 y = 31 := by simp [days_in_month]
      rw [h31] at hd
      subst hd
      refine ⟨?_, by omega, by omega, by omega, by simp [days_in_month]⟩
      simp only [days_from_civil]; omega

theorem wrap_int32_of_fits (v : Int) (h1 : -2147483648 ≤ v) (h2 : v ≤ 2147483647) :
    wrap_int32 v = v := by
  unfold wrap_int32
  omega

theorem next_day_year_le (d : Date) : d.year ≤ (next_day d).year := by
  simp only [next_day]
  split
  · exact le_refl _
  · split
    · exact le_refl _
    · simp

/-- The year of the rolled-over arrival is the year of the departure or of
the day after it. -/
theorem arrival_year_cases (type : FlightType) (d : Date) (t : TimeOfDay) :
    (t.hour * 60 + t.minute + minutes_added type < 1440 ∧
      (arrival_by_rollover type d t).1.year = d.year) ∨
    (¬ t.hour * 60 + t.minute + minutes_added type < 1440 ∧
      (arrival_by_rollover type d t).1.year = (next_day d).year) := by
  by_cases hlt : t.hour * 60 + t.minute + minutes_added type < 1440
  · left; exact ⟨hlt, by simp [arrival_by_rollover, hlt]⟩
  · right; exact ⟨hlt, by simp [arrival_by_rollover, hlt]⟩

theorem compute_arrival_eq_rollover (tz : Int) (type : FlightType) (d : Date) (t : TimeOfDay)
    (hd : valid_date d) (ht : valid_time t)
    (hyear : (arrival_by_rollover type d t).1.year ≤ 2147483647) :
    compute_arrival tz type d t = arrival_by_rollover type d t := by
  have hcases := arrival_year_cases type d t
  have hny := next_day_year_le d
  obtain ⟨dd, dm, dy⟩ := d
  obtain ⟨hr, mi⟩ := t
  simp only [valid_date, valid_time, parse_date_check, parse_time_check] at hd ht
  simp only at hcases hny
  have hd' : ¬ (dy < 1900 ∨ dm < 1 ∨ dm > 12) ∧ ¬ (dd < 1 ∨ dd > days_in_month dm dy) := by
    constructor
    · intro hc; simp [hc] at hd
    · intro hc; simp [hc] at hd
  have ht' : ¬ (hr < 0 ∨ hr > 23 ∨ mi < 0 ∨ mi > 59) := by intro hc; simp [hc] at ht
  have hm1 : 1 ≤ dm := by omega
  have hm2 : dm ≤ 12 := by omega
  have hd1 : 1 ≤ dd := by omega
  have hd2 : dd ≤ days_in_month dm dy := by omega
  have hdy : dy ≤ 2147483647 := by
    rcases hcases with ⟨_, h⟩ | ⟨_, h⟩ <;> omega
  have hndy : ¬ hr * 60 + mi + minutes_added type < 1440 →
      (next_day { day := dd, month := dm, year := dy }).year ≤ 2147483647 := by
    intro hge
    rcases hcases with ⟨h, _⟩ | ⟨_, h⟩
    · exact absurd h hge
    · omega
  clear hcases hyear
  have hrt := civil_from_days_from_civil dy dm dd hm1 hm2 hd1 hd2
  obtain ⟨hs, hn1, hn2, hn3, hn4⟩ := days_from_civil_next_day dy dm dd hm1 hm2 hd1 hd2
  have hrt2 := civil_from_days_from_civil _ _ _ hn1 hn2 hn3 hn4
  rw [hs] at hrt2
  generalize hnd : next_day { day := dd, month := dm, year := dy } = nd at *
  obtain ⟨nd1, nd2, nd3⟩ := nd
  simp only at hrt2 hndy hny hn1 hn2
  have hmin : minutes_added type = if type = .FLIGHT_NATIONAL then NATIONAL_DURATION_MINUTES
      else INTERNATIONAL_DURATION_MINUTES + INTERNATIONAL_TIME_DIFF_MINUTES := by
    cases type <;> simp [minutes_added, NATIONAL_DURATION_MINUTES,
      INTERNATIONAL_DURATION_MINUTES, INTERNATIONAL_TIME_DIFF_MINUTES]
  obtain ⟨delta, hdelta⟩ : ∃ delta : Int, delta = minutes_added type := ⟨_, rfl⟩
  have hdr : delta = 50 ∨ delta = 1080 := by
    cases type <;> simp [minutes_added] at hdelta <;> omega
  rw [← hdelta] at hndy
  simp only [compute_arrival, arrival_by_rollover, datetime_to_time_t, time_t_to_datetime,
    mktime, localtime, ← hmin, ← hdelta]
  have w1 : wrap_int32 (dy - 1900) = dy - 1900 := wrap_int32_of_fits _ (by omega) (by omega)
  have w2 : wrap_int32 (dm - 1) = dm - 1 := wrap_int32_of_fits _ (by omega) (by omega)
  have e1 : dy - 1900 + 1900 = dy := by omega
  have e2 : dm - 1 + 1 = dm := by omega
  rw [w1, w2, e1, e2]
  generalize hD : days_from_civil dy dm dd = D at *
  by_cases hlt : hr * 60 + mi + delta < 1440
  · have q : (D * 86400 + hr * 3600 + mi * 60 + 0 - tz + delta * 60 + tz) / 86400 = D := by omega
    have r : (D * 86400 + hr * 3600 + mi * 60 + 0 - tz + delta * 60 + tz) % 86400
        = (hr * 60 + mi + delta) * 60 := by omega
    rw [q, r, hrt, if_pos hlt]
    simp only [Prod.mk.injEq, Date.mk.injEq, TimeOfDay.mk.injEq, wrap_int32]
    and_intros <;> first | trivial | omega
  · have q : (D * 86400 + hr * 3600 + mi * 60 + 0 - tz + delta * 60 + tz) / 86400 = D + 1 := by omega
    have r : (D * 86400 + hr * 3600 + mi * 60 + 0 - tz + delta * 60 + tz) % 86400
        = (hr * 60 + mi + delta - 1440) * 60 := by omega
    have hn3y := hndy hlt
    rw [q, r, hrt2, if_neg hlt, hnd]
    simp only [Prod.mk.injEq, Date.mk.injEq, TimeOfDay.mk.injEq, wrap_int32]
    and_intros <;> first | trivial | omega

/-- The rolled-over arrival is a calendar date and a clock time, and it
denotes the instant of the departure plus the minute delta. -/
theorem arrival_by_rollover_instant (tz : Int) (type : FlightType) (d : Date) (t : TimeOfDay)
    (hd : valid_date d) (ht : valid_time t)
    (hyear : (arrival_by_rollover type d t).1.year ≤ 2147483647) :
    valid_date (arrival_by_rollover type d t).1 ∧ valid_time (arrival_by_rollover type d t).2 ∧
    datetime_to_time_t tz (arrival_by_rollover type d t).1 (arrival_by_rollover type d t).2
      = datetime_to_time_t tz d t + minutes_added type * 60 := by
  have hcases := arrival_year_cases type d t
  obtain ⟨dd, dm, dy⟩ := d
  obtain ⟨hr, mi⟩ := t
  have hd0 := hd
  simp only [valid_date, valid_time, parse_date_check, parse_time_check] at hd ht
  simp only at hcases
  have hd' : ¬ (dy < 1900 ∨ dm < 1 ∨ dm > 12) ∧ ¬ (dd < 1 ∨ dd > days_in_month dm dy) := by
    constructor
    · intro hc; simp [hc] at hd
    · intro hc; simp [hc] at hd
  have ht' : ¬ (hr < 0 ∨ hr > 23 ∨ mi < 0 ∨ mi > 59) := by intro hc; simp [hc] at ht
  obtain ⟨hs, hn1, hn2, hn3, hn4⟩ :=
    days_from_civil_next_day dy dm dd (by omega) (by omega) (by omega) (by omega)
  have hny : dy ≤ (next_day { day := dd, month := dm, year := dy }).year :=
    next_day_year_le { day := dd, month := dm, year := dy }
  have hdy : dy ≤ 2147483647 := by
    rcases hcases with ⟨_, h⟩ | ⟨_, h⟩ <;> omega
  have hndy : ¬ hr * 60 + mi + minutes_added type < 1440 →
      (next_day { day := dd, month := dm, year := dy }).year ≤ 2147483647 := by
    intro hge
    rcases hcases with ⟨h, _⟩ | ⟨_, h⟩
    · exact absurd h hge
    · omega
  clear hcases hyear
  obtain ⟨delta, hdelta⟩ : ∃ delta : Int, delta = minutes_added type := ⟨_, rfl⟩
  have hdr : delta = 50 ∨ delta = 1080 := by
    cases type <;> simp [minutes_added] at hdelta <;> omega
  rw [← hdelta] at hndy
  have w1 : wrap_int32 (dy - 1900) = dy - 1900 := wrap_int32_of_fits _ (by omega) (by omega)
  have w2 : wrap_int32 (dm - 1) = dm - 1 := wrap_int32_of_fits _ (by omega) (by omega)
  simp only [arrival_by_rollover, ← hdelta]
  by_cases hlt : hr * 60 + mi + delta < 1440
  · simp only [if_pos hlt]
    refine ⟨hd0, ?_, ?_⟩
    · simp only [valid_time, parse_time_check]
      have : ¬ ((hr * 60 + mi + delta) / 60 < 0 ∨ (hr * 60 + mi + delta) / 60 > 23 ∨
          (hr * 60 + mi + delta) % 60 < 0 ∨ (hr * 60 + mi + delta) % 60 > 59) := by omega
      simp [this]
    · simp only [datetime_to_time_t, mktime]
      omega
  · simp only [if_neg hlt]
    have hn3y := hndy hlt
    generalize hnd : next_day { day := dd, month := dm, year := dy } = nd at *
    obtain ⟨nd1, nd2, nd3⟩ := nd
    simp only at hs hn1 hn2 hn3 hn4 hny hn3y
    refine ⟨?_, ?_, ?_⟩
    · simp only [valid_date, parse_date_check]
      have c1 : ¬ (nd3 < 1900 ∨ nd2 < 1 ∨ nd2 > 12) := by omega
      have c2 : ¬ (nd1 < 1 ∨ nd1 > days_in_month nd2 nd3) := by omega
      simp [c1, c2]
    · simp only [valid_time, parse_time_check]
      have : ¬ ((hr * 60 + mi + delta - 1440) / 60 < 0 ∨ (hr * 60 + mi + delta - 1440) / 60 > 23 ∨
          (hr * 60 + mi + delta - 1440) % 60 < 0 ∨ (hr * 60 + mi + delta - 1440) % 60 > 59) := by
        omega
      simp [this]
    · simp only [datetime_to_time_t, mktime]
      have w3 : wrap_int32 (nd3 - 1900) = nd3 - 1900 :=
        wrap_int32_of_fits _ (by omega) (by omega)
      have w4 : wrap_int32 (nd2 - 1) = nd2 - 1 := wrap_int32_of_fits _ (by omega) (by omega)
      have e1 : nd3 - 1900 + 1900 = nd3 := by omega
      have e2 : nd2 - 1 + 1 = nd2 := by omega
      have e3 : dy - 1900 + 1900 = dy := by omega
      have e4 : dm - 1 + 1 = dm := by omega
      rw [w1, w2, w3, w4, e1, e2, e3, e4, hs]
      omega

/-! ## Arrival computation: claim C10 -/

/-- C10, as amended: with local time at a fixed offset `tz` from UTC, for
every departure date accepted by `parse_date` and time accepted by
`parse_time` whose arrival falls in a year that the C `int` holds (at most
2147483647), `compute_arrival` returns the departure moved forward by 50
minutes on the national and by 1080 minutes on the international flight, the
date rolling over day, month and year ends (leap years included): the result
is the calendar roll-over of the departure, it is again a valid date and
time, and it denotes the instant of the departure plus the delta.  In
particular (National, 01/01/2024, 23:30) gives (02/01/2024, 00:20) and
(International, 31/12/2023, 20:00) gives (01/01/2024, 14:00). -/
theorem compute_arrival_rollover :
    (∀ (tz : Int) (type : FlightType) (d : Date) (t : TimeOfDay), valid_date d → valid_time t →
      (arrival_by_rollover type d t).1.year ≤ 2147483647 →
      compute_arrival tz type d t = arrival_by_rollover type d t ∧
      valid_date (compute_arrival tz type d t).1 ∧ valid_time (compute_arrival tz type d t).2 ∧
      datetime_to_time_t tz (compute_arrival tz type d t).1 (compute_arrival tz type d t).2
        = datetime_to_time_t tz d t + minutes_added type * 60) ∧
    (∀ tz : Int, compute_arrival tz .FLIGHT_NATIONAL
        { day := 1, month := 1, year := 2024 } { hour := 23, minute := 30 }
      = ({ day := 2, month := 1, year := 2024 }, { hour := 0, minute := 20 })) ∧
    (∀ tz : Int, compute_arrival tz .FLIGHT_INTERNATIONAL
        { day := 31, month := 12, year := 2023 } { hour := 20, minute := 0 }
      = ({ day := 1, month := 1, year := 2024 }, { hour := 14, minute := 0 })) := by
  refine ⟨?_, ?_, ?_⟩
  · intro tz type d t hd ht hyear
    have h := compute_arrival_eq_rollover tz type d t hd ht hyear
    rw [h]
    exact ⟨rfl, arrival_by_rollover_instant tz type d t hd ht hyear⟩
  · intro tz
    rw [compute_arrival_eq_rollover tz _ _ _ (by decide) (by decide) (by decide)]
    decide
  · intro tz
    rw [compute_arrival_eq_rollover tz _ _ _ (by decide) (by decide) (by decide)]
    decide

/-- C10 at a leap day: the national flight leaving on 29/02/2024 at 23:45
arrives on 01/03/2024 at 00:35, in a zone five hours west of UTC. -/
theorem compute_arrival_rollover_witness :
    valid_date { day := 29, month := 2, year := 2024 } ∧
    valid_time { hour := 23, minute := 45 } ∧
    (arrival_by_rollover .FLIGHT_NATIONAL { day := 29, month := 2, year := 2024 }
        { hour := 23, minute := 45 }).1.year ≤ 2147483647 ∧
    compute_arrival (-18000) .FLIGHT_NATIONAL { day := 29, month := 2, year := 2024 }
        { hour := 23, minute := 45 }
      = arrival_by_rollover .FLIGHT_NATIONAL { day := 29, month := 2, year := 2024 }
        { hour := 23, minute := 45 } ∧
    arrival_by_rollover .FLIGHT_NATIONAL { day := 29, month := 2, year := 2024 }
        { hour := 23, minute := 45 }
      = ({ day := 1, month := 3, year := 2024 }, { hour := 0, minute := 35 }) :=
  ⟨by decide, by decide, by decide,
   (compute_arrival_rollover.1 (-18000) .FLIGHT_NATIONAL { day := 29, month := 2, year := 2024 }
      { hour := 23, minute := 45 } (by decide) (by decide) (by decide)).1,
   by decide⟩

/-- C10 as stated fails at the last departure date an `int` year allows: for
the national flight leaving on 31/12/2147483647 at 23:30, a date and time
that `parse_date` and `parse_time` accept, the instant 50 minutes later lies
on 01/01/2147483648 at 00:20, and `compute_arrival` returns the year
-2147483648, because the `int` addition `tm_year + 1900` cannot hold the next
year.  The returned date is not one that `parse_date` accepts. -/
theorem compute_arrival_rollover_counterexample :
    valid_date { day := 31, month := 12, year := 2147483647 } ∧
    valid_time { hour := 23, minute := 30 } ∧
    arrival_by_rollover .FLIGHT_NATIONAL { day := 31, month := 12, year := 2147483647 }
        { hour := 23, minute := 30 }
      = ({ day := 1, month := 1, year := 2147483648 }, { hour := 0, minute := 20 }) ∧
    compute_arrival 0 .FLIGHT_NATIONAL { day := 31, month := 12, year := 2147483647 }
        { hour := 23, minute := 30 }
      = ({ day := 1, month := 1, year := -2147483648 }, { hour := 0, minute := 20 }) ∧
    ¬ valid_date (compute_arrival 0 .FLIGHT_NATIONAL
        { day := 31, month := 12, year := 2147483647 } { hour := 23, minute := 30 }).1 := by
  refine ⟨by decide, by decide, by decide, by decide, by decide⟩

/-! ## Seat allocation: claims C4 and C5 -/

/-- C4: `assign_random_seat` always returns, and it returns `-1` exactly when
every seat of the class range of the flight is occupied, for every table,
flight type, class and sequence of `rand()` values.  When some seat of the
range is free the returned value is a seat of the range, and the `return -1`
behind the sequential fallback is never reached: it is not the case that
seats were counted as available, all 1000 draws missed and the fallback
found nothing. -/
theorem assign_random_seat_fails_iff_full (sm : SeatMap) (rnd : Nat → Nat) (f : FlightType)
    (c : TicketClass) :
    ((assign_random_seat sm rnd f c).1 = -1 ↔
      ∀ s : Int, seat_range_start c ≤ s → s ≤ seat_range_end c → sm f s = true) ∧
    ((∃ s : Int, seat_range_start c ≤ s ∧ s ≤ seat_range_end c ∧ sm f s = false) →
      seat_range_start c ≤ (assign_random_seat sm rnd f c).1 ∧
      (assign_random_seat sm rnd f c).1 ≤ seat_range_end c) ∧
    ¬ (count_available sm f (seat_range_start c)
          (seat_range_end c - seat_range_start c + 1).toNat ≠ 0 ∧
        random_phase sm f (seat_range_start c) (seat_range_end c) rnd 0 1000 = none ∧
        sequential_phase sm f (seat_range_start c)
          (seat_range_end c - seat_range_start c + 1).toNat = none) := by
  obtain ⟨hb1, hb2, hb3⟩ := seat_range_bounds c
  refine ⟨?_, ?_, ?_⟩
  · rcases assign_random_seat_cases sm rnd f c with ⟨hfull, heq⟩ | ⟨s, h1, h2, h3, heq⟩
    · rw [heq]; exact ⟨fun _ => hfull, fun _ => rfl⟩
    · rw [heq]
      constructor
      · intro h
        simp only at h
        omega
      · intro h
        have := h s h1 h2
        rw [h3] at this
        exact absurd this (by decide)
  · rintro ⟨s0, g1, g2, g3⟩
    rcases assign_random_seat_cases sm rnd f c with ⟨hfull, _⟩ | ⟨s, h1, h2, _, heq⟩
    · have := hfull s0 g1 g2
      rw [g3] at this
      exact absurd this (by decide)
    · rw [heq]; exact ⟨h1, h2⟩
  · rintro ⟨hav, _, hseq⟩
    apply hav
    rw [count_available_eq_zero_iff]
    exact (sequential_phase_none_iff sm f _ _).1 hseq

/-- C4 at a table whose first-class seats 1 to 19 are taken while every draw
hits seat 1: seat 20 is free, so a seat of the range is returned, and it is
the seat 20 that only the sequential fallback can find. -/
theorem assign_random_seat_fails_iff_full_witness :
    almost_full_first .FLIGHT_NATIONAL 20 = false ∧
    (seat_range_start .CLASS_FIRST ≤
        (assign_random_seat almost_full_first (fun _ => 0) .FLIGHT_NATIONAL .CLASS_FIRST).1 ∧
      (assign_random_seat almost_full_first (fun _ => 0) .FLIGHT_NATIONAL .CLASS_FIRST).1 ≤
        seat_range_end .CLASS_FIRST) ∧
    (assign_random_seat almost_full_first (fun _ => 0) .FLIGHT_NATIONAL .CLASS_FIRST).1 = 20 :=
  ⟨by decide,
   (assign_random_seat_fails_iff_full almost_full_first (fun _ => 0) .FLIGHT_NATIONAL
      .CLASS_FIRST).2.1 ⟨20, by decide, by decide, by decide⟩,
   by decide⟩

/-- C5: when `assign_random_seat` returns a seat (not `-1`), the seat lies in
the range of the class, its entry for the flight was false before the call and
is true after it, and every other entry of both flights is unchanged. -/
theorem assign_random_seat_success (sm : SeatMap) (rnd : Nat → Nat) (f : FlightType)
    (c : TicketClass) (h : (assign_random_seat sm rnd f c).1 ≠ -1) :
    seat_range_start c ≤ (assign_random_seat sm rnd f c).1 ∧
    (assign_random_seat sm rnd f c).1 ≤ seat_range_end c ∧
    sm f (assign_random_seat sm rnd f c).1 = false ∧
    (assign_random_seat sm rnd f c).2 f (assign_random_seat sm rnd f c).1 = true ∧
    ∀ (f2 : FlightType) (s2 : Int), ¬ (f2 = f ∧ s2 = (assign_random_seat sm rnd f c).1) →
      (assign_random_seat sm rnd f c).2 f2 s2 = sm f2 s2 := by
  rcases assign_random_seat_cases sm rnd f c with ⟨_, heq⟩ | ⟨s, h1, h2, h3, heq⟩
  · rw [heq] at h; exact absurd rfl h
  · rw [heq]
    exact ⟨h1, h2, h3, write_same _ _ _ _, fun f2 s2 hne => write_other _ _ _ _ _ _ hne⟩

/-- C5 at the empty table with every draw 7 in economy class: seat 28 is
returned, it was free, it is marked, and seat 29 stays free. -/
theorem assign_random_seat_success_witness :
    (assign_random_seat (fun _ _ => false) (fun _ => 7) .FLIGHT_NATIONAL .CLASS_ECONOMY).1 = 28 ∧
    (assign_random_seat (fun _ _ => false) (fun _ => 7) .FLIGHT_NATIONAL .CLASS_ECONOMY).2
      .FLIGHT_NATIONAL 28 = true ∧
    (assign_random_seat (fun _ _ => false) (fun _ => 7) .FLIGHT_NATIONAL .CLASS_ECONOMY).2
      .FLIGHT_NATIONAL 29 = false :=
  have h := assign_random_seat_success (fun _ _ => false) (fun _ => 7) .FLIGHT_NATIONAL
    .CLASS_ECONOMY (by decide)
  ⟨by decide, by decide, (h.2.2.2.2 .FLIGHT_NATIONAL 29 (by decide)).trans rfl⟩

/-! ## Invariants of the reachable states: claims C1, C2 and C3 -/

/-- C1: in every registry state reachable from the initial state by
`buy_ticket`, `modify_passenger`, `cancel_ticket` and `change_seat`, whatever
`rand()` returns, for every flight type `f` and seat `s` in 1..250 the entry
`seatMap[f][s]` is true exactly when one live record of flight `f` has seat
`s`; no two live records of a flight share a seat. -/
theorem reachable_seat_occupancy (reg : Registry) (h : Reachable reg) (f : FlightType)
    (s : Int) (h1 : 1 ≤ s) (h2 : s ≤ 250) :
    (reg.seatMap f s = true ↔ holders reg.passengers f s = 1) ∧
    holders reg.passengers f s ≤ 1 := by
  exact seatOccupancy_of_reachable reg h f s h1 h2

/-- C1 at the state after one booking that drew seat 5: seat 5 of the
national flight is marked and has exactly one holder. -/
theorem reachable_seat_occupancy_witness :
    Reachable one_booking_registry ∧
    ((one_booking_registry.seatMap .FLIGHT_NATIONAL 5 = true ↔
        holders one_booking_registry.passengers .FLIGHT_NATIONAL 5 = 1) ∧
      holders one_booking_registry.passengers .FLIGHT_NATIONAL 5 ≤ 1) ∧
    one_booking_registry.seatMap .FLIGHT_NATIONAL 5 = true :=
  ⟨Reachable.book 0 _ _ Reachable.initial,
   reachable_seat_occupancy one_booking_registry (Reachable.book 0 _ _ Reachable.initial)
     .FLIGHT_NATIONAL 5 (by decide) (by decide),
   by decide⟩

/-- C2: in every reachable registry state every live record has its seat in
the range of its own ticket class, 1..20 in first class and 21..250 in
economy. -/
theorem reachable_class_range (reg : Registry) (h : Reachable reg) (p : Passenger)
    (hp : p ∈ reg.passengers) :
    (p.ticketClass = .CLASS_FIRST → 1 ≤ p.seatNumber ∧ p.seatNumber ≤ 20) ∧
    (p.ticketClass = .CLASS_ECONOMY → 21 ≤ p.seatNumber ∧ p.seatNumber ≤ 250) := by
  exact classRange_of_reachable reg h p hp

/-- C2 at the state after one first-class booking that drew seat 5. -/
theorem reachable_class_range_witness :
    Reachable one_booking_registry ∧
    sample_passenger ['7'] .FLIGHT_NATIONAL .CLASS_FIRST 5 ∈ one_booking_registry.passengers ∧
    ((sample_passenger ['7'] .FLIGHT_NATIONAL .CLASS_FIRST 5).ticketClass = .CLASS_FIRST →
      1 ≤ (sample_passenger ['7'] .FLIGHT_NATIONAL .CLASS_FIRST 5).seatNumber ∧
      (sample_passenger ['7'] .FLIGHT_NATIONAL .CLASS_FIRST 5).seatNumber ≤ 20) :=
  ⟨Reachable.book 0 _ _ Reachable.initial, by decide,
   (reachable_class_range one_booking_registry (Reachable.book 0 _ _ Reachable.initial)
     (sample_passenger ['7'] .FLIGHT_NATIONAL .CLASS_FIRST 5) (by decide)).1⟩

/-- C3, failing input: the 32-character document booked twice.  The second
`buy_ticket` looks the typed 32 characters up among stored documents of 31
characters, finds nothing and books; the reachable state then holds two live
records with the same stored document. -/
theorem buy_ticket_books_truncated_document_twice :
    Reachable twice_booked_registry ∧
    (buy_ticket 0 Registry.initial (fun _ => 0)
      (sample_booking .FLIGHT_INTERNATIONAL .CLASS_FIRST long_document)).2 = .Booked 1 ∧
    (buy_ticket 0
      (buy_ticket 0 Registry.initial (fun _ => 0)
        (sample_booking .FLIGHT_INTERNATIONAL .CLASS_FIRST long_document)).1
      (fun _ => 0) (sample_booking .FLIGHT_NATIONAL .CLASS_FIRST long_document)).2 = .Booked 1 ∧
    twice_booked_registry.passengers.map (fun p => p.document)
      = [List.replicate 31 'A', List.replicate 31 'A'] :=
  ⟨Reachable.book 0 _ _ (Reachable.book 0 _ _ Reachable.initial), by decide, by decide, by decide⟩

/-! ## Registry operations: claims C6 to C9 -/

/-- C6, failing inputs, both at reachable states that satisfy the occupancy
invariant.  After one first-class booking (seat 5) the request 4294967299,
far outside the class range 1..20, is not answered `SeatOutOfClassRange`: the
`long` is narrowed to `int` before the range check, 3 is left, and the record
is moved to seat 3.  After the 32-character document was booked on both
flights, the request for seat 3 under the document of the national record
moves the international record that comes first in the list; the national
record keeps seat 1 and that seat stays occupied. -/
theorem change_seat_breaks_atomicity :
    (Reachable one_booking_registry ∧ SeatOccupancy one_booking_registry ∧
      sample_passenger ['7'] .FLIGHT_NATIONAL .CLASS_FIRST 5 ∈ one_booking_registry.passengers ∧
      ¬ (seat_range_start .CLASS_FIRST ≤ 4294967299 ∧ 4294967299 ≤ seat_range_end .CLASS_FIRST) ∧
      (change_seat one_booking_registry ['7'] 4294967299).2 = .Updated ∧
      (change_seat one_booking_registry ['7'] 4294967299).1.passengers
        = [sample_passenger ['7'] .FLIGHT_NATIONAL .CLASS_FIRST 3] ∧
      ¬ ChangeSeatAtomic one_booking_registry
          (sample_passenger ['7'] .FLIGHT_NATIONAL .CLASS_FIRST 5) 4294967299) ∧
    (Reachable twice_booked_registry ∧ SeatOccupancy twice_booked_registry ∧
      sample_passenger (List.replicate 31 'A') .FLIGHT_NATIONAL .CLASS_FIRST 1
        ∈ twice_booked_registry.passengers ∧
      (change_seat twice_booked_registry (List.replicate 31 'A') 3).2 = .Updated ∧
      (change_seat twice_booked_registry (List.replicate 31 'A') 3).1.passengers
        = [sample_passenger (List.replicate 31 'A') .FLIGHT_INTERNATIONAL .CLASS_FIRST 3,
           sample_passenger (List.replicate 31 'A') .FLIGHT_NATIONAL .CLASS_FIRST 1] ∧
      (change_seat twice_booked_registry (List.replicate 31 'A') 3).1.seatMap
        .FLIGHT_NATIONAL 1 = true ∧
      ¬ ChangeSeatAtomic twice_booked_registry
          (sample_passenger (List.replicate 31 'A') .FLIGHT_NATIONAL .CLASS_FIRST 1) 3) := by
  have hr1 : Reachable one_booking_registry := Reachable.book 0 _ _ Reachable.initial
  have hr2 : Reachable twice_booked_registry :=
    Reachable.book 0 _ _ (Reachable.book 0 _ _ Reachable.initial)
  refine ⟨⟨hr1, seatOccupancy_of_reachable _ hr1, by decide, by decide, by decide, by decide, ?_⟩,
    ⟨hr2, seatOccupancy_of_reachable _ hr2, by decide, by decide, by decide, by decide, ?_⟩⟩
  · intro h
    unfold ChangeSeatAtomic at h
    obtain ⟨h1, _, _⟩ := h
    have := (h1 (by decide)).1
    exact absurd this (by decide)
  · intro h
    unfold ChangeSeatAtomic at h
    obtain ⟨_, _, h3⟩ := h
    have := (h3 (by decide) (by decide)).2.1
    exact absurd this (by decide)

/-- C7: when every seat of the class range of the flight is occupied and the
document of the booking is carried by no live record, `buy_ticket` answers
`NoSeatAvailable`, the passenger list is the one before the call and both
seat tables are unchanged. -/
theorem buy_ticket_full_partition (tz : Int) (reg : Registry) (rnd : Nat → Nat)
    (inp : BookingInput)
    (hfull : ∀ s : Int, seat_range_start inp.ticketClass ≤ s → s ≤ seat_range_end inp.ticketClass →
      reg.seatMap inp.flightType s = true)
    (hfresh : ∀ q ∈ reg.passengers, q.document ≠ inp.document) :
    (buy_ticket tz reg rnd inp).2 = .NoSeatAvailable ∧
    (buy_ticket tz reg rnd inp).1.passengers = reg.passengers ∧
    (buy_ticket tz reg rnd inp).1.seatMap = reg.seatMap := by
  have hfind := (find_passenger_none reg.passengers inp.document).2 hfresh
  unfold buy_ticket
  rw [hfind]
  simp only
  have hft : (new_passenger tz inp).flightType = inp.flightType := rfl
  have htc : (new_passenger tz inp).ticketClass = inp.ticketClass := rfl
  rw [hft, htc]
  rcases assign_random_seat_cases reg.seatMap rnd inp.flightType inp.ticketClass with
    ⟨_, heq⟩ | ⟨s0, h1, h2, h3, _⟩
  · rw [heq]; simp
  · have := hfull s0 h1 h2
    rw [h3] at this
    exact absurd this (by decide)

/-- C7 at a state whose first-class seats 1 to 20 are all taken. -/
theorem buy_ticket_full_partition_witness :
    (buy_ticket 0 full_first_registry (fun n => n)
      (sample_booking .FLIGHT_NATIONAL .CLASS_FIRST ['7'])).2 = .NoSeatAvailable ∧
    (buy_ticket 0 full_first_registry (fun n => n)
      (sample_booking .FLIGHT_NATIONAL .CLASS_FIRST ['7'])).1.passengers = [] :=
  have h := buy_ticket_full_partition 0 full_first_registry (fun n => n)
    (sample_booking .FLIGHT_NATIONAL .CLASS_FIRST ['7'])
    (by
      intro s h1 h2
      have e1 : seat_range_start .CLASS_FIRST = 1 := by decide
      have e2 : seat_range_end .CLASS_FIRST = 20 := by decide
      simp only [sample_booking, e1, e2] at h1 h2
      simp [full_first_registry, h1, h2])
    (by intro q hq; simp [full_first_registry] at hq)
  ⟨h.1, h.2.1⟩

/-- C8: in every registry state the program can be in, for every document
`d`: if some live record carries `d` then `cancel_ticket` answers `Removed`,
the list is the old one with the first record carrying `d` taken out and the
others unchanged in their order, the table entry of that record's flight type
and seat is free and every other seat entry is unchanged; if no record
carries `d` the call answers `NotFound` and the list and both seat tables
are unchanged. -/
theorem cancel_ticket_removes_and_releases (reg : Registry) (d : CStr) (h : Reachable reg) :
    CancelRemovesAndReleases reg d := by
  have hcr := classRange_of_reachable reg h
  obtain ⟨hfound, hnone⟩ := cancel_ticket_guarded reg d
  unfold CancelRemovesAndReleases
  refine ⟨?_, hnone⟩
  intro hex
  obtain ⟨hres, pre, p, post, e1, e2, e3, e4, hfree, _, hother⟩ := hfound hex
  refine ⟨hres, pre, p, post, e1, e2, e3, e4, ?_, hother⟩
  apply hfree
  have hp := hcr p (by rw [e1]; simp)
  cases hc : p.ticketClass with
  | CLASS_FIRST =>
    have := hp.1 hc
    omega
  | CLASS_ECONOMY =>
    have := hp.2 hc
    omega

/-- C8 at the state after one booking on seat 5: the document is found, the
record is removed and seat 5 of the national flight is free again. -/
theorem cancel_ticket_removes_and_releases_witness :
    Reachable one_booking_registry ∧
    CancelRemovesAndReleases one_booking_registry ['7'] ∧
    (cancel_ticket one_booking_registry ['7']).2 = .Removed ∧
    (cancel_ticket one_booking_registry ['7']).1.passengers = [] ∧
    (cancel_ticket one_booking_registry ['7']).1.seatMap .FLIGHT_NATIONAL 5 = false :=
  ⟨Reachable.book 0 _ _ Reachable.initial,
   cancel_ticket_removes_and_releases one_booking_registry ['7']
     (Reachable.book 0 _ _ Reachable.initial),
   by decide, by decide, by decide⟩

/-- C9, failing input: the 32-character document is booked on the
international and then on the national flight, both first class, both on seat
1.  For the live national record `p` (seat 1), `cancel_ticket` with the
document of `p` removes the international record that comes first in the
list; `p` stays and seat 1 of the national flight stays occupied, so for no
outcome of `rand()` does a following first-class booking on the national
flight, under a fresh document, get seat 1. -/
theorem cancel_twin_document_keeps_seat :
    Reachable twice_booked_registry ∧
    sample_passenger (List.replicate 31 'A') .FLIGHT_NATIONAL .CLASS_FIRST 1
      ∈ twice_booked_registry.passengers ∧
    (cancel_ticket twice_booked_registry (List.replicate 31 'A')).2 = .Removed ∧
    (cancel_ticket twice_booked_registry (List.replicate 31 'A')).1.passengers
      = [sample_passenger (List.replicate 31 'A') .FLIGHT_NATIONAL .CLASS_FIRST 1] ∧
    ∀ (tz : Int) (rnd : Nat → Nat),
      (buy_ticket tz (cancel_ticket twice_booked_registry (List.replicate 31 'A')).1 rnd
        (sample_booking .FLIGHT_NATIONAL .CLASS_FIRST ['9'])).2 ≠ .Booked 1 := by
  refine ⟨Reachable.book 0 _ _ (Reachable.book 0 _ _ Reachable.initial), by decide, by decide,
    by decide, ?_⟩
  intro tz rnd hb
  have := (buy_ticket_booked tz _ rnd _ 1 hb).2.2
  exact absurd this (by decide)

/-! ## Date validation: claim C11 -/

/-- The table of `days_in_month` agrees with the Gregorian month lengths. -/
theorem days_in_month_eq_gregorian (month year : Int) (h1 : 1 ≤ month) (h2 : month ≤ 12) :
    days_in_month month year = gregorian_month_length month year := by
  have hleap : (year % 4 = 0 ∧ (year % 100 ≠ 0 ∨ year % 400 = 0)) ↔ gregorian_leap_year year := by
    unfold gregorian_leap_year
    constructor
    · rintro ⟨a, b⟩
      refine ⟨by omega, ?_⟩
      rcases b with b | b
      · left; omega
      · right; omega
    · rintro ⟨a, b⟩
      refine ⟨by omega, ?_⟩
      rcases b with b | b
      · left; omega
      · right; omega
  have hfeb : (if year % 4 = 0 ∧ (year % 100 ≠ 0 ∨ year % 400 = 0) then (29 : Int) else 28)
      = gregorian_month_length 2 year := by
    unfold gregorian_month_length
    by_cases hl : gregorian_leap_year year
    · rw [if_pos (hleap.2 hl)]; simp [hl]
    · rw [if_neg (fun h => hl (hleap.1 h))]; simp [hl]
  rcases days_in_month_cases month year h1 h2 with h | h | h | h | h | h | h | h | h | h | h | h <;>
    obtain ⟨hm, hd⟩ := h <;> subst hm <;> rw [hd] <;>
    first
      | exact hfeb
      | simp [gregorian_month_length]

/-- C11: for all integers day, month and year, the check of `parse_date`
accepts them exactly when year >= 1900, 1 <= month <= 12 and 1 <= day <= D,
where D is the Gregorian length of the month: 31 or 30, and for February 29
when the year is divisible by 4 and (not by 100 or by 400) and 28 otherwise.
In particular (29, 2, 2023) is rejected and (29, 2, 2024) is accepted. -/
theorem parse_date_check_gregorian :
    (∀ day month year : Int,
      parse_date_check day month year = true ↔
        (1900 ≤ year ∧ 1 ≤ month ∧ month ≤ 12 ∧ 1 ≤ day ∧
          day ≤ gregorian_month_length month year)) ∧
    parse_date_check 29 2 2023 = false ∧
    parse_date_check 29 2 2024 = true := by
  refine ⟨?_, by decide, by decide⟩
  intro day month year
  unfold parse_date_check
  by_cases hym : year < 1900 ∨ month < 1 ∨ month > 12
  · simp only [hym, if_true]
    constructor
    · intro h; cases h
    · intro h; omega
  · have h1 : 1 ≤ month := by omega
    have h2 : month ≤ 12 := by omega
    simp only [hym, if_false, days_in_month_eq_gregorian month year h1 h2]
    by_cases hd : day < 1 ∨ day > gregorian_month_length month year
    · simp only [hd, if_true]
      constructor
      · intro h; cases h
      · intro h; omega
    · simp only [hd, if_false]
      constructor
      · intro _; omega
      · intro _; trivial

/-! ## Booking appends: claim C12 -/

theorem list_passengers_eq (ps : List Passenger) : list_passengers ps = ps := by
  induction ps with
  | nil => rfl
  | cons p rest ih => simp [list_passengers, ih]

/-- What one `buy_ticket` call does to the list, by its result: a call that
ends with a seat links one record behind the old ones, any other call leaves
the list alone. -/
theorem buy_ticket_passengers (tz : Int) (reg : Registry) (rnd : Nat → Nat)
    (inp : BookingInput) :
    (buy_ticket tz reg rnd inp).1.passengers
      = reg.passengers ++
        (match (buy_ticket tz reg rnd inp).2 with
          | .Booked seat => [{ new_passenger tz inp with seatNumber := seat }]
          | _ => []) := by
  unfold buy_ticket
  cases hfind : find_passenger reg.passengers inp.document with
  | some q => simp
  | none =>
    simp only
    by_cases hs : (assign_random_seat reg.seatMap rnd (new_passenger tz inp).flightType
        (new_passenger tz inp).ticketClass).1 = -1
    · simp [hs]
    · simp [hs, add_passenger_eq_append]

/-- A booking under a document that no live record carries, into a class
range with a free seat, ends with the seat the allocation returns. -/
theorem buy_ticket_result_of_free (tz : Int) (reg : Registry) (rnd : Nat → Nat)
    (inp : BookingInput)
    (hfresh : ∀ q ∈ reg.passengers, q.document ≠ inp.document)
    (hfree : ∃ s : Int, seat_range_start inp.ticketClass ≤ s ∧
      s ≤ seat_range_end inp.ticketClass ∧ reg.seatMap inp.flightType s = false) :
    (buy_ticket tz reg rnd inp).2
      = .Booked (assign_random_seat reg.seatMap rnd inp.flightType inp.ticketClass).1 := by
  have hfind := (find_passenger_none reg.passengers inp.document).2 hfresh
  unfold buy_ticket
  rw [hfind]
  simp only
  have hft : (new_passenger tz inp).flightType = inp.flightType := rfl
  have htc : (new_passenger tz inp).ticketClass = inp.ticketClass := rfl
  rw [hft, htc]
  rcases assign_random_seat_cases reg.seatMap rnd inp.flightType inp.ticketClass with
    ⟨hfull, _⟩ | ⟨s0, h1, h2, _, heq⟩
  · obtain ⟨s, g1, g2, g3⟩ := hfree
    have := hfull s g1 g2
    rw [g3] at this
    exact absurd this (by decide)
  · rw [heq]
    obtain ⟨hb1, hb2, hb3⟩ := seat_range_bounds inp.ticketClass
    have hne : s0 ≠ -1 := by omega
    simp [hne]

theorem strncpy_field_of_fits (src : CStr) (size : Nat) (h : src.length ≤ size - 1) :
    strncpy_field src size = src := by
  unfold strncpy_field
  exact List.take_of_length_le h

/-- A run of bookings leaves the old records in place and links the new ones
behind them in the order of the bookings. -/
theorem book_each_passengers (tz : Int) (reg : Registry)
    (reqs : List ((Nat → Nat) × BookingInput)) :
    (book_each tz reg reqs).passengers = reg.passengers ++ booked_in_order tz reg reqs := by
  induction reqs generalizing reg with
  | nil => simp [book_each, booked_in_order]
  | cons r rest ih =>
    obtain ⟨rnd, inp⟩ := r
    simp only [book_each, booked_in_order]
    rw [ih, buy_ticket_passengers]
    cases (buy_ticket tz reg rnd inp).2 <;> simp

/-- C12, as amended: for every registry state and every booking whose
document is carried by no live record and whose class range on its flight has
a free seat, `buy_ticket` succeeds and the resulting passenger sequence is
the previous one, every record unchanged and in the same order, followed by
exactly one new record as its last element.  The new record carries the given
flight type, class, birth date, gender, flight date and departure time, the
first 63 characters of the given first and last name, the first 31 characters
of the given phone, the given document when it has at most 31 characters, the
flight code of its flight type and the seat returned by the allocation.
Consequently `list_passengers` shows the records of a run of bookings behind
the earlier ones in the order in which they were booked. -/
theorem buy_ticket_appends_in_order :
    (∀ (tz : Int) (reg : Registry) (rnd : Nat → Nat) (inp : BookingInput),
      (∀ q ∈ reg.passengers, q.document ≠ inp.document) →
      (∃ s : Int, seat_range_start inp.ticketClass ≤ s ∧ s ≤ seat_range_end inp.ticketClass ∧
        reg.seatMap inp.flightType s = false) →
      ∃ rec : Passenger,
        (buy_ticket tz reg rnd inp).2 = .Booked rec.seatNumber ∧
        list_passengers (buy_ticket tz reg rnd inp).1.passengers
          = list_passengers reg.passengers ++ [rec] ∧
        rec.flightType = inp.flightType ∧
        (inp.document.length ≤ 31 → rec.document = inp.document) ∧
        rec.firstName = inp.firstName.take 63 ∧ rec.lastName = inp.lastName.take 63 ∧
        rec.phone = inp.phone.take 31 ∧
        rec.birthDate = inp.birthDate ∧ rec.gender = inp.gender ∧
        rec.ticketClass = inp.ticketClass ∧ rec.flightDate = inp.flightDate ∧
        rec.departureTime = inp.departureTime ∧
        rec.flightCode = FLIGHT_CODES inp.flightType ∧
        rec.seatNumber = (assign_random_seat reg.seatMap rnd inp.flightType inp.ticketClass).1) ∧
    (∀ (tz : Int) (reg : Registry) (reqs : List ((Nat → Nat) × BookingInput)),
      list_passengers (book_each tz reg reqs).passengers
        = list_passengers reg.passengers ++ booked_in_order tz reg reqs) := by
  refine ⟨?_, ?_⟩
  · intro tz reg rnd inp hfresh hfree
    have hres := buy_ticket_result_of_free tz reg rnd inp hfresh hfree
    have hlist := buy_ticket_passengers tz reg rnd inp
    rw [hres] at hlist
    simp only at hlist
    refine ⟨{ new_passenger tz inp with
        seatNumber := (assign_random_seat reg.seatMap rnd inp.flightType inp.ticketClass).1 },
      hres, ?_, rfl, ?_, rfl, rfl, rfl, rfl, rfl, rfl, rfl, rfl, ?_, rfl⟩
    · rw [list_passengers_eq, list_passengers_eq, hlist]
    · intro hlen
      exact strncpy_field_of_fits inp.document MAX_DOCUMENT_LENGTH hlen
    · show strncpy_field (FLIGHT_CODES inp.flightType) MAX_FLIGHT_CODE_LENGTH
        = FLIGHT_CODES inp.flightType
      cases inp.flightType <;> rfl
  · intro tz reg reqs
    rw [list_passengers_eq, list_passengers_eq, book_each_passengers]

/-- C12 at the first booking of a run: from the empty registry the list shown
after it has exactly the one new record. -/
theorem buy_ticket_appends_in_order_witness :
    Registry.initial.seatMap .FLIGHT_NATIONAL 1 = false ∧
    (list_passengers one_booking_registry.passengers).length = 1 :=
  ⟨by decide, by
    obtain ⟨rec, _, hl, _⟩ := buy_ticket_appends_in_order.1 0 Registry.initial (fun _ => 4)
      (sample_booking .FLIGHT_NATIONAL .CLASS_FIRST ['7'])
      (by intro q hq; cases hq) ⟨1, by decide, by decide, by decide⟩
    unfold one_booking_registry
    rw [hl]
    simp [list_passengers, Registry.initial]⟩

/-- C12 as stated fails at two bookings into the empty registry.  With a
first name of 64 characters the new record carries only its first 63, and
with a document of 32 characters it carries only the first 31: each text
field is copied by `strncpy` up to the size of the record's field. -/
theorem buy_ticket_appends_in_order_counterexample :
    ¬ BookingAppendsGiven 0 Registry.initial (fun _ => 0) long_name_booking ∧
    ¬ BookingAppendsGiven 0 Registry.initial (fun _ => 0)
        (sample_booking .FLIGHT_NATIONAL .CLASS_FIRST long_document) := by
  constructor
  · intro h
    unfold BookingAppendsGiven at h
    obtain ⟨rec, _, hl, _, _, hfn, _⟩ :=
      h (by intro q hq; cases hq) ⟨1, by decide, by decide, by decide⟩
    have hlen : (list_passengers (buy_ticket 0 Registry.initial (fun _ => 0)
        long_name_booking).1.passengers).map (fun p => p.firstName.length) = [63] := by decide
    rw [hl] at hlen
    have hrec : rec.firstName.length = 64 := by rw [hfn]; decide
    simp [list_passengers, Registry.initial, hrec] at hlen
  · intro h
    unfold BookingAppendsGiven at h
    obtain ⟨rec, _, hl, _, hdoc, _⟩ :=
      h (by intro q hq; cases hq) ⟨1, by decide, by decide, by decide⟩
    have hlen : (list_passengers (buy_ticket 0 Registry.initial (fun _ => 0)
        (sample_booking .FLIGHT_NATIONAL .CLASS_FIRST long_document)).1.passengers).map
          (fun p => p.document.length) = [31] := by decide
    rw [hl] at hlen
    have hrec : rec.document.length = 32 := by rw [hdoc]; decide
    simp [list_passengers, Registry.initial, hrec] at hlen

end TicketOffice
